import Mathlib

/-!
# Meme Cascade: scene orchestration, entity pool and bounce physics

A shallow embedding of `meme_cascade.c` and `libs/budget_vectors.h`.

Modelling conventions.

* C `int` variables (`meme_count`, loop index `i`) are `Int`.
* `Uint32` timestamps are `Nat` values below `2 ^ 32`; `Uint32` subtraction is
  `u32_sub`, which wraps modulo `2 ^ 32`.
* C `float` values (`vec2` components, `scale`) are the finite binary32 values,
  held as rationals. Every `float` operation of the source (`+`, `-`, `*`, `/`,
  conversion from an integer) is the exact operation followed by `f32_round`,
  rounding to the nearest binary32 value with ties to even (`FLT_EVAL_METHOD`
  0), subnormal range included. Infinities, NaN and the sign of zero are not
  represented: `f32_round` does not cap a result at `FLT_MAX`, so the embedding
  covers the computations whose exact results satisfy `f32_finite`; theorems
  about arbitrary `float` inputs assume it.
  Negation and comparison are exact. The integers `0`, `1280` and `768` that
  the source compares a `float` with are binary32 values.
* The array `memes[MAX_MEMES]` is a list; an access outside the list is
  undefined behaviour and makes the embedded function return `none`, and so
  does the remainder `rand() % 0`.
* External collaborators are inputs: each `SDL_GetTicks()` call receives the
  number of milliseconds elapsed since the previous call, `rand()` draws and the
  outcome of `load_image` come with the call, the answer of
  `SDL_GetQueuedAudioSize` comes with the frame.
* Ghost fields of the state record calls into collaborators: `load_calls`,
  `acquired`, `released`, `played`, `second_scream_log`, `clock`.
* Draw calls (`SDL_RenderCopy`, `FC_Draw`, `render_wiggling_image`,
  `render_credits`) do not write any modelled variable and are left out.
-/

namespace MemeCascade

/-! ## Constants -/

def SCREEN_WIDTH : Nat := 1280
def SCREEN_HEIGHT : Nat := 768
def TEXT_BOX_COUNT : Nat := 3
def TEXT_BOX_SPEED : Int := 2
def MEME_SPAWN_INTERVAL : Nat := 1000
def IMAGE_LIFETIME : Nat := 10000
def RICOCHET_DURATION : Nat := 7000
def MAX_MEMES : Int := 10

/-- Two to the thirty-second: the number of values of a `Uint32`. -/
def U32 : Nat := 4294967296

/-- Subtraction of two `Uint32` values, wrapping modulo `2 ^ 32`. -/
def u32_sub (a b : Nat) : Nat := (a % U32 + U32 - b % U32) % U32

/-! ## Binary32 arithmetic -/

/-- Round a rational to the nearest integer, ties to the even one. -/
def round_half_even (r : ℚ) : ℤ :=
  if r - ⌊r⌋ < 1 / 2 then ⌊r⌋
  else if 1 / 2 < r - ⌊r⌋ then ⌊r⌋ + 1
  else if ⌊r⌋ % 2 = 0 then ⌊r⌋ else ⌊r⌋ + 1

/-- The binary exponent of the binade of `q`, not below the exponent `-126` of
the subnormal range of binary32. -/
def f32_exponent (q : ℚ) : ℤ := max (Int.log 2 |q|) (-126)

/-- The spacing of the binary32 values around `q`: 24 significant bits. -/
def f32_quantum (q : ℚ) : ℚ := (2 : ℚ) ^ (f32_exponent q - 23)

/-- Round to the nearest binary32 value, ties to even. -/
def f32_round (q : ℚ) : ℚ := (round_half_even (q / f32_quantum q) : ℚ) * f32_quantum q

/-- The exact result `q` rounds to a finite binary32 value: its magnitude is
below `2 ^ 128 - 2 ^ 103`, half a spacing above `FLT_MAX`, where rounding to
nearest gives an infinity. -/
def f32_finite (q : ℚ) : Prop := |q| < 2 ^ 128 - 2 ^ 103

/-- The `float` sum `a + b`. -/
def f32_add (a b : ℚ) : ℚ := f32_round (a + b)

/-- The `float` difference `a - b`. -/
def f32_sub (a b : ℚ) : ℚ := f32_round (a - b)

/-- The `float` product `a * b`. -/
def f32_mul (a b : ℚ) : ℚ := f32_round (a * b)

/-- The `float` quotient `a / b`. -/
def f32_div (a b : ℚ) : ℚ := f32_round (a / b)

/-- The conversion of an integer to `float`. -/
def f32_of_int (n : Int) : ℚ := f32_round (n : ℚ)

/-- The conversion of an unsigned integer to `float`. -/
def f32_of_nat (n : Nat) : ℚ := f32_round (n : ℚ)

/-! ## budget_vectors.h -/

/-- Two `float` components. -/
structure vec2 where
  x : ℚ
  y : ℚ
deriving DecidableEq

def vec2_create (x y : ℚ) : vec2 := { x := x, y := y }

def vec2_add (a b : vec2) : vec2 := vec2_create (f32_add a.x b.x) (f32_add a.y b.y)

/-! ## Data model -/

structure text_box where
  position : vec2
  velocity : vec2
  scale : ℚ
  scale_speed : ℚ
  text : String
deriving DecidableEq

/-- A falling image; `texture` is the handle returned by `load_image`. -/
structure meme_image where
  texture : Nat
  position : vec2
  velocity : vec2
  scale : ℚ
  spawn_time : Nat
deriving DecidableEq

/-- The zero-initialised array element of a C global. -/
def meme_image.zero : meme_image :=
  { texture := 0, position := vec2_create 0 0, velocity := vec2_create 0 0,
    scale := 0, spawn_time := 0 }

/-- Read `a[i]` for a C `int` index; `none` when the index is outside the array. -/
def arr_get {α : Type} (a : List α) (i : Int) : Option α :=
  if 0 ≤ i then a[i.toNat]? else none

/-- Write `a[i] = v` for a C `int` index; `none` when the index is outside the array. -/
def arr_set {α : Type} (a : List α) (i : Int) (v : α) : Option (List α) :=
  if 0 ≤ i ∧ i.toNat < a.length then some (a.set i.toNat v) else none

/-- The global variables of `meme_cascade.c`, the `text_boxes` of `main`, and
ghost fields recording the calls made to external collaborators. -/
structure State where
  blackout : Bool
  ricochet_active : Bool
  credits_started : Bool
  ricochet_start_time : Nat
  credits_start_time : Nat
  last_meme_spawn_time : Nat
  game_start_time : Nat
  scream_played : Bool
  credits_music_start_time : Nat
  second_scream_triggered : Bool
  memes : List meme_image
  meme_count : Int
  meme_file_count : Nat
  text_boxes : List text_box
  /-- Ghost: milliseconds elapsed at the latest `SDL_GetTicks()` call. -/
  clock : Nat
  /-- Ghost: asset indices passed to `load_image` by `spawn_meme`, oldest first. -/
  load_calls : List Nat
  /-- Ghost: texture handles returned to `spawn_meme` by `load_image`. -/
  acquired : List Nat
  /-- Ghost: texture handles passed to `SDL_DestroyTexture`. -/
  released : List Nat
  /-- Ghost: file names passed to `play_audio`. -/
  played : List String
  /-- Ghost: clock readings of the frames that played the second scream. -/
  second_scream_log : List Nat
  /-- Ghost: the teardown after the frame loop has run. -/
  torn_down : Bool
deriving DecidableEq

/-- One `SDL_GetTicks()` call, `d` milliseconds after the previous one: the
value returned (a `Uint32`) and the state with the clock advanced. -/
def SDL_GetTicks (d : Nat) (s : State) : Nat × State :=
  ((s.clock + d) % U32, { s with clock := s.clock + d })

/-- The live part of the pool: `memes[0 .. meme_count)`. -/
def live (s : State) : List meme_image := s.memes.take s.meme_count.toNat

/-! ## spawn_meme -/

/-- What `spawn_meme` receives from its collaborators: three `rand()` draws,
the outcome of `load_image` (texture handle, width, height, or failure) and the
time elapsed before its `SDL_GetTicks()` call. -/
structure SpawnEnv where
  rand_index : Nat
  load : Option (Nat × Int × Int)
  rand_x : Nat
  rand_vy : Nat
  dt : Nat

def spawn_meme (e : SpawnEnv) (s : State) : Option State :=
  if s.blackout || decide (s.meme_count ≥ MAX_MEMES) then some s
  else if s.meme_file_count = 0 then none
  else
    let random_index := e.rand_index % s.meme_file_count
    let s := { s with load_calls := s.load_calls ++ [random_index] }
    match e.load with
    | none => some s
    | some (texture, _width, height) =>
      let s := { s with acquired := s.acquired ++ [texture] }
      let position := vec2_create (f32_of_nat (e.rand_x % SCREEN_WIDTH)) (f32_of_int (-height))
      let velocity := vec2_create (f32_of_nat 0) (f32_of_nat (1 + e.rand_vy % 3))
      let (spawn_time, s) := SDL_GetTicks e.dt s
      let meme : meme_image :=
        { texture := texture, position := position, velocity := velocity,
          scale := 1, spawn_time := spawn_time }
      match arr_set s.memes s.meme_count meme with
      | none => none
      | some memes => some { s with memes := memes, meme_count := s.meme_count + 1 }

/-! ## update_and_render_memes -/

/-- The age of an entity at `current_time`: `current_time - spawn_time` in `Uint32`. -/
def age (current_time : Nat) (m : meme_image) : Nat := u32_sub current_time m.spawn_time

/-- The update of one entity in the loop body: position and scale. -/
def update_meme (current_time : Nat) (m : meme_image) : meme_image :=
  let position := vec2_add m.position m.velocity
  let scale : ℚ :=
    f32_sub 1 (f32_div (f32_of_nat (u32_sub current_time m.spawn_time)) (f32_of_nat IMAGE_LIFETIME))
  let scale : ℚ := if scale < 0 then 0 else scale
  { m with position := position, scale := scale }

/-- The `for` loop of `update_and_render_memes`, from index `i`; each unit of
fuel pays for one iteration, and the loop returns `none` when it has none left
before `i < meme_count` fails. -/
def update_loop (current_time : Nat) : Nat → Int → State → Option State
  | 0, i, s => if i < s.meme_count then none else some s
  | fuel + 1, i, s =>
    if i < s.meme_count then
      match arr_get s.memes i with
      | none => none
      | some m =>
        let meme := update_meme current_time m
        match arr_set s.memes i meme with
        | none => none
        | some memes =>
          let s := { s with memes := memes }
          if s.blackout || decide (u32_sub current_time meme.spawn_time > IMAGE_LIFETIME) then
            let s := { s with released := s.released ++ [meme.texture] }
            let s := { s with meme_count := s.meme_count - 1 }
            match arr_get s.memes s.meme_count with
            | none => none
            | some last =>
              match arr_set s.memes i last with
              | none => none
              | some memes =>
                let s := { s with memes := memes }
                let i := i - 1
                update_loop current_time fuel (i + 1) s
          else update_loop current_time fuel (i + 1) s
    else some s

/-- The pool update, `d` milliseconds after the previous clock reading. Every
iteration lowers `meme_count - i` by one, so `meme_count` iterations suffice. -/
def update_and_render_memes (d : Nat) (s : State) : Option State :=
  let (current_time, s) := SDL_GetTicks d s
  update_loop current_time s.meme_count.toNat 0 s

/-! ## render_ricocheting_texts -/

/-- The `float` constant `0.002f`. -/
def TEXT_SCALE_SPEED_MIN : ℚ := f32_round (2 / 1000)

/-- The `float` constant `0.008f`. -/
def TEXT_SCALE_SPEED_MAX : ℚ := f32_round (8 / 1000)

/-- One bounce tick of a text box (the draw call is left out). -/
def render_ricocheting_texts (box : text_box) : text_box :=
  let box := { box with position := vec2_add box.position box.velocity }
  let box :=
    if box.position.x < 0 ∨ box.position.x > (SCREEN_WIDTH : ℚ) then
      { box with velocity := { box.velocity with x := -box.velocity.x } }
    else box
  let box :=
    if box.position.y < 0 ∨ box.position.y > (SCREEN_HEIGHT : ℚ) then
      { box with velocity := { box.velocity with y := -box.velocity.y } }
    else box
  box

/-- The `rand()` draws that initialise one text box in `main`. -/
structure BoxDraws where
  rand_x : Nat
  rand_y : Nat
  rand_vx : Nat
  rand_vy : Nat
  rand_speed : Nat

/-- The initialisation of `text_boxes[i]` in `main`; `rand_max` is the
platform's `RAND_MAX`, at least 32767. -/
def init_text_box (rand_max : Nat) (r : BoxDraws) : text_box :=
  { text := "",
    position := vec2_create (f32_of_nat (r.rand_x % SCREEN_WIDTH))
      (f32_of_nat (r.rand_y % SCREEN_HEIGHT)),
    velocity := vec2_create (f32_of_int ((if r.rand_vx % 2 = 0 then 1 else -1) * TEXT_BOX_SPEED))
      (f32_of_int ((if r.rand_vy % 2 = 0 then 1 else -1) * TEXT_BOX_SPEED)),
    scale_speed := f32_add TEXT_SCALE_SPEED_MIN
      (f32_mul (f32_div (f32_of_nat r.rand_speed) (f32_of_nat rand_max))
        (f32_sub TEXT_SCALE_SPEED_MAX TEXT_SCALE_SPEED_MIN)),
    scale := 1 }

/-! ## main -/

/-- The call `play_audio(filename, &audio_device)`: only the call is recorded. -/
def play_audio (filename : String) (s : State) : State :=
  { s with played := s.played ++ [filename] }

def start_credits (d_start d_music : Nat) (s : State) : State :=
  let s := { s with credits_started := true }
  let (t, s) := SDL_GetTicks d_start s
  let s := { s with credits_start_time := t }
  let s := play_audio "resources/arexs_beat.ogg" s
  let (t, s) := SDL_GetTicks d_music s
  { s with credits_music_start_time := t }

/-- What one iteration of the frame loop receives from its collaborators: the
time elapsed before each `SDL_GetTicks()` call in program order, the inputs of
`spawn_meme`, and the answer of `SDL_GetQueuedAudioSize`. -/
structure FrameEnv where
  dt_gate : Nat
  dt_interval : Nat
  spawn : SpawnEnv
  dt_last_spawn : Nat
  queued_audio : Nat
  dt_ricochet_start : Nat
  dt_ricochet_check : Nat
  dt_credits_start : Nat
  dt_credits_music : Nat
  dt_scream_check : Nat
  dt_update : Nat

/-- Meme spawning, three seconds after the loop starts and once per interval. -/
def spawn_step (e : FrameEnv) (s : State) : Option State :=
  if !s.blackout then
    let (t, s) := SDL_GetTicks e.dt_gate s
    if u32_sub t s.game_start_time > 3000 then
      let (t, s) := SDL_GetTicks e.dt_interval s
      if u32_sub t s.last_meme_spawn_time > MEME_SPAWN_INTERVAL then
        match spawn_meme e.spawn s with
        | none => none
        | some s =>
          let (t, s) := SDL_GetTicks e.dt_last_spawn s
          some { s with last_meme_spawn_time := t }
      else some s
    else some s
  else some s

/-- When the beat has finished: blackout, first scream, ricochet starts. -/
def blackout_step (e : FrameEnv) (s : State) : State :=
  if e.queued_audio = 0 ∧ s.blackout = false then
    let s := { s with blackout := true }
    let s := play_audio "resources/wilhelm_scream.ogg" s
    let s := { s with ricochet_active := true }
    let (t, s) := SDL_GetTicks e.dt_ricochet_start s
    { s with ricochet_start_time := t }
  else s

/-- After `RICOCHET_DURATION`: ricochet ends, the pool is cleared, credits start. -/
def ricochet_step (e : FrameEnv) (s : State) : State :=
  if s.ricochet_active then
    let (t, s) := SDL_GetTicks e.dt_ricochet_check s
    if u32_sub t s.ricochet_start_time > RICOCHET_DURATION then
      let s := { s with ricochet_active := false }
      let s := { s with meme_count := 0 }
      start_credits e.dt_credits_start e.dt_credits_music s
    else s
  else s

/-- The second scream, four seconds after the credits music starts. -/
def second_scream_step (e : FrameEnv) (s : State) : State :=
  if s.credits_started ∧ s.second_scream_triggered = false then
    let (t, s) := SDL_GetTicks e.dt_scream_check s
    if u32_sub t s.credits_music_start_time > 4000 then
      let s := { s with second_scream_triggered := true }
      let s := { s with second_scream_log := s.second_scream_log ++ [t] }
      play_audio "resources/wilhelm_scream.ogg" s
    else s
  else s

/-- The three bounce ticks of a frame, while ricochet is active. -/
def text_step (s : State) : State :=
  if s.ricochet_active then
    { s with text_boxes := s.text_boxes.map render_ricocheting_texts }
  else s

/-- The pool update of a frame, only while not in blackout. -/
def update_step (e : FrameEnv) (s : State) : Option State :=
  if !s.blackout then update_and_render_memes e.dt_update s else some s

/-- One iteration of the `while (!quit)` loop of `main`. -/
def frame (e : FrameEnv) (s : State) : Option State :=
  match spawn_step e s with
  | none => none
  | some s =>
    let s := blackout_step e s
    let s := ricochet_step e s
    let s := second_scream_step e s
    let s := text_step s
    update_step e s

/-- What `main` receives before the frame loop: the number of `.png` files
found by `load_meme_files`, `RAND_MAX`, the draws for the three text boxes, and
the clock at the `SDL_GetTicks()` call that sets `game_start_time`. -/
structure InitEnv where
  file_count : Nat
  rand_max : Nat
  box0 : BoxDraws
  box1 : BoxDraws
  box2 : BoxDraws
  t0 : Nat

/-- The state at the first iteration of the frame loop. -/
def main_init (e : InitEnv) : State :=
  { blackout := false, ricochet_active := false, credits_started := false,
    ricochet_start_time := 0, credits_start_time := 0, last_meme_spawn_time := 0,
    game_start_time := e.t0 % U32, scream_played := false,
    credits_music_start_time := 0, second_scream_triggered := false,
    memes := List.replicate MAX_MEMES.toNat meme_image.zero, meme_count := 0,
    meme_file_count := e.file_count,
    text_boxes := [init_text_box e.rand_max e.box0, init_text_box e.rand_max e.box1,
      init_text_box e.rand_max e.box2],
    clock := e.t0, load_calls := [], acquired := [], released := [],
    played := ["resources/arexs_beat.ogg"], second_scream_log := [], torn_down := false }

/-- The iterations of the frame loop, one per element of the list. The event
poll at the top of an iteration only decides whether it is the last one. -/
def frames : List FrameEnv → State → Option State
  | [], s => some s
  | e :: es, s =>
    match frame e s with
    | none => none
    | some s => frames es s

/-- The teardown after the loop: `FC_FreeFont`, `SDL_CloseAudioDevice`,
`SDL_DestroyRenderer`, `SDL_DestroyWindow`, `TTF_Quit`, `SDL_Quit`. It makes no
`SDL_DestroyTexture` call; `released` lists the program's own
`SDL_DestroyTexture` calls, not what the SDL library frees inside
`SDL_DestroyRenderer`. -/
def teardown (s : State) : State := { s with torn_down := true }

/-- A whole run of `main`: initialisation, the frames up to the one that saw
the quit event, teardown. -/
def main (e0 : InitEnv) (es : List FrameEnv) : Option State :=
  match frames es (main_init e0) with
  | none => none
  | some s => some (teardown s)

/-! ## Pool operations of the frame loop -/

/-- The operations of the frame loop that write the pool or the blackout flag. -/
inductive PoolOp where
  | spawn (e : SpawnEnv)
  | update (d : Nat)
  | clear
  | blackout

def apply_op : PoolOp → State → Option State
  | .spawn e, s => spawn_meme e s
  | .update d, s => update_and_render_memes d s
  | .clear, s => some { s with meme_count := 0 }
  | .blackout, s => some { s with blackout := true }

def run_ops : List PoolOp → State → Option State
  | [], s => some s
  | op :: ops, s =>
    match apply_op op s with
    | none => none
    | some s => run_ops ops s

/-! ## Specification-side definitions, invariants and sample inputs -/

/-- An entity survives the update at `now`: no blackout and age within the lifetime. -/
def survives (blackout : Bool) (now : Nat) (m : meme_image) : Bool :=
  !(blackout || decide (u32_sub now m.spawn_time > IMAGE_LIFETIME))

/-- The array has `MAX_MEMES` slots and the count lies between zero and `MAX_MEMES`. -/
def pool_ok (s : State) : Prop :=
  s.memes.length = MAX_MEMES.toNat ∧ 0 ≤ s.meme_count ∧ s.meme_count ≤ MAX_MEMES

/-- Clamp `x` to the interval from `lo` to `hi`. -/
def clamp (x lo hi : ℚ) : ℚ := max lo (min x hi)

/-- The scale as the specification words it:
`clamp(1 - (now - spawnTime) / LIFETIME, 0, 1)`, in exact arithmetic. -/
def spec_scale (now : Nat) (m : meme_image) : ℚ :=
  clamp (1 - (age now m : ℚ) / 10000) 0 1

/-- Draws for a text box that starts in the bottom right corner. -/
def corner_draws : BoxDraws :=
  { rand_x := 1279, rand_y := 767, rand_vx := 0, rand_vy := 0, rand_speed := 5 }

/-- An initialisation with one asset file. -/
def one_file_init : InitEnv :=
  { file_count := 1, rand_max := 32767, box0 := corner_draws, box1 := corner_draws,
    box2 := corner_draws, t0 := 0 }

/-- An initialisation where `load_meme_files` found no `.png` file. -/
def no_file_init : InitEnv := { one_file_init with file_count := 0 }

/-- A spawn whose image load succeeds with texture handle 7. -/
def good_spawn : SpawnEnv :=
  { rand_index := 0, load := some (7, 64, 64), rand_x := 100, rand_vy := 1, dt := 0 }

/-- An entity spawned at time zero. -/
def one_meme : meme_image :=
  { texture := 7, position := vec2_create 100 (-64), velocity := vec2_create 0 2,
    scale := 1, spawn_time := 0 }

/-- A pool with one live entity, spawned at time zero. -/
def one_meme_state : State :=
  { main_init one_file_init with
    memes := (main_init one_file_init).memes.set 0 one_meme,
    meme_count := 1, acquired := [7], load_calls := [0] }

/-- A frame in which nothing is due: 16 ms pass, the beat is still playing. -/
def idle_frame : FrameEnv :=
  { dt_gate := 16, dt_interval := 0, spawn := good_spawn, dt_last_spawn := 0,
    queued_audio := 4096, dt_ricochet_start := 0, dt_ricochet_check := 0,
    dt_credits_start := 0, dt_credits_music := 0, dt_scream_check := 0, dt_update := 0 }

/-- A frame 3001 ms after the start: the first spawn is due. -/
def spawn_frame : FrameEnv := { idle_frame with dt_gate := 3001 }

/-- A frame in which the audio queue is found empty. -/
def beat_over_frame : FrameEnv := { idle_frame with queued_audio := 0 }

/-- A frame whose ricochet check reads the clock 7001 ms later. -/
def ricochet_over_frame : FrameEnv := { idle_frame with dt_gate := 0, dt_ricochet_check := 7001 }

/-- A frame whose second scream check reads the clock 4001 ms later. -/
def scream_frame : FrameEnv := { idle_frame with dt_gate := 0, dt_scream_check := 4001 }

/-- The scales of the live entities, in array order. -/
def live_scales (s : State) : List ℚ := (live s).map meme_image.scale

/-- A text box on the right edge whose horizontal velocity is `2 ^ (-14)`. -/
def edge_box : text_box :=
  { position := vec2_create 1280 384, velocity := vec2_create (1 / 16384) 2,
    scale := 1, scale_speed := 0, text := "" }

/-- The spawn times of the live entities, in array order. -/
def live_spawn_times (s : State) : List Nat := (live s).map meme_image.spawn_time

/-- The texture handles of the live entities, in array order. -/
def live_textures (s : State) : List Nat := (live s).map meme_image.texture

/-- The handles acquired, the handles released, the handles still in the pool,
and whether teardown has run. -/
def handle_summary (s : State) : List Nat × List Nat × List Nat × Bool :=
  (s.acquired, s.released, live_textures s, s.torn_down)

/-- Whether credits have started, and `credits_start_time - ricochet_start_time`. -/
def credits_entry (s : State) : Bool × Nat :=
  (s.credits_started, u32_sub s.credits_start_time s.ricochet_start_time)

/-- A state in blackout. -/
def blackout_state : State := { main_init one_file_init with blackout := true }

/-- Pool operations: a spawn, an update five seconds later, the clear. -/
def sample_ops : List PoolOp := [PoolOp.spawn good_spawn, PoolOp.update 5000, PoolOp.clear]

/-- The state of one coordinate of a bouncing box: inside the interval with
speed two, or at most one step outside and heading back in. -/
def coord_ok (bound x v : ℚ) : Prop :=
  (0 ≤ x ∧ x ≤ bound ∧ (v = 2 ∨ v = -2)) ∨ (-2 ≤ x ∧ x < 0 ∧ v = 2) ∨
    (bound < x ∧ x ≤ bound + 2 ∧ v = -2)

/-- The box after `n` bounce ticks. -/
def bounce_ticks : Nat → text_box → text_box
  | 0, box => box
  | n + 1, box => render_ricocheting_texts (bounce_ticks n box)

/-- A text box as `main` initialises it, in the bottom right corner. -/
def corner_box : text_box := init_text_box 32767 corner_draws

/-- The frames of a run in which the beat ends at once and ricochet then ends. -/
def credits_run : List FrameEnv := [beat_over_frame, ricochet_over_frame]

/-- The state after `credits_run`. -/
def credits_state : State :=
  (frames credits_run (main_init one_file_init)).getD (main_init one_file_init)

/-- The frames of a run that goes on to play the second scream. -/
def scream_run : List FrameEnv := [beat_over_frame, ricochet_over_frame, scream_frame]

/-- The state after `scream_run`. -/
def scream_state : State :=
  (frames scream_run (main_init one_file_init)).getD (main_init one_file_init)

/-- The frames of a run that spawns one image, then sees the beat end, then
sees ricochet end; the last frame also sees the quit event. -/
def leak_run : List FrameEnv := [spawn_frame, beat_over_frame, ricochet_over_frame]

/-- The scene variables agree in two states, and the clock has not gone back. -/
def scene_same (s s' : State) : Prop :=
  s'.blackout = s.blackout ∧ s'.ricochet_active = s.ricochet_active ∧
  s'.credits_started = s.credits_started ∧
  s'.ricochet_start_time = s.ricochet_start_time ∧
  s'.credits_start_time = s.credits_start_time ∧
  s'.credits_music_start_time = s.credits_music_start_time ∧
  s'.second_scream_triggered = s.second_scream_triggered ∧
  s'.second_scream_log = s.second_scream_log ∧ s.clock ≤ s'.clock

/-- The invariant of the scene variables along the frame loop. -/
def scene_ok (s : State) : Prop :=
  (s.ricochet_active = true → s.blackout = true ∧ s.credits_started = false) ∧
  (s.credits_started = true → s.blackout = true) ∧
  (s.credits_started = false → s.second_scream_triggered = false) ∧
  (s.second_scream_triggered = false → s.second_scream_log = []) ∧
  s.second_scream_log.length ≤ 1 ∧
  (∀ t ∈ s.second_scream_log, u32_sub t s.credits_music_start_time > 4000) ∧
  (s.clock < U32 →
    s.ricochet_start_time ≤ s.clock ∧ s.credits_start_time ≤ s.clock ∧
    s.credits_music_start_time ≤ s.clock ∧
    (s.credits_started = true →
      s.ricochet_start_time + RICOCHET_DURATION < s.credits_start_time) ∧
    (∀ t ∈ s.second_scream_log, s.credits_music_start_time + 4000 < t))

/-! ## Binary32 rounding: lemmas -/

theorem round_half_even_cases (r : ℚ) :
    round_half_even r = ⌊r⌋ ∨ round_half_even r = ⌊r⌋ + 1 := by
  unfold round_half_even
  split_ifs <;> simp

theorem round_half_even_ge (r : ℚ) (n : ℤ) (h : (n : ℚ) ≤ r) : n ≤ round_half_even r := by
  have h1 : n ≤ ⌊r⌋ := Int.le_floor.mpr h
  rcases round_half_even_cases r with h2 | h2 <;> rw [h2] <;> omega

theorem round_half_even_le (r : ℚ) (n : ℤ) (h : r ≤ (n : ℚ)) : round_half_even r ≤ n := by
  have h1 : ⌊r⌋ ≤ n := by
    have := Int.floor_le r
    exact_mod_cast (Int.floor_le r).trans h |> fun h' => Int.cast_le.mp h'
  by_cases hr : (⌊r⌋ : ℚ) = r
  · unfold round_half_even
    rw [if_pos (by rw [hr]; norm_num)]
    exact h1
  · have hlt : (⌊r⌋ : ℚ) < r := lt_of_le_of_ne (Int.floor_le r) hr
    have h2 : (⌊r⌋ : ℚ) < (n : ℚ) := lt_of_lt_of_le hlt h
    have h3 : ⌊r⌋ < n := by exact_mod_cast h2
    rcases round_half_even_cases r with h4 | h4 <;> rw [h4] <;> omega

theorem round_half_even_error (r : ℚ) : |(round_half_even r : ℚ) - r| ≤ 1 / 2 := by
  have h1 := Int.floor_le r
  have h2 := Int.lt_floor_add_one r
  unfold round_half_even
  split_ifs with a b c
  · rw [abs_le]; constructor <;> linarith
  · push_cast; rw [abs_le]; constructor <;> linarith
  · rw [abs_le]; constructor <;> linarith
  · push_cast; rw [abs_le]; constructor <;> linarith

theorem f32_quantum_pos (q : ℚ) : 0 < f32_quantum q := by
  unfold f32_quantum
  positivity

theorem f32_round_error (q : ℚ) : |f32_round q - q| ≤ f32_quantum q / 2 := by
  have hq := f32_quantum_pos q
  have h := round_half_even_error (q / f32_quantum q)
  unfold f32_round
  have e : (round_half_even (q / f32_quantum q) : ℚ) * f32_quantum q - q =
      ((round_half_even (q / f32_quantum q) : ℚ) - q / f32_quantum q) * f32_quantum q := by
    field_simp
  rw [e, abs_mul, abs_of_pos hq]
  calc |(round_half_even (q / f32_quantum q) : ℚ) - q / f32_quantum q| * f32_quantum q
      ≤ 1 / 2 * f32_quantum q := mul_le_mul_of_nonneg_right h (le_of_lt hq)
    _ = f32_quantum q / 2 := by ring

/-- Below `2 ^ 24` in magnitude the spacing is one over a power of two. -/
theorem f32_quantum_small (q : ℚ) (h : |q| < 2 ^ 24) :
    ∃ j : ℕ, f32_quantum q = 1 / (2 : ℚ) ^ j := by
  have he : f32_exponent q ≤ 23 := by
    unfold f32_exponent
    refine max_le ?_ (by norm_num)
    rcases eq_or_lt_of_le (abs_nonneg q) with h0 | h0
    · rw [← h0, Int.log_zero_right]; norm_num
    · have : Int.log 2 |q| < 24 := by
        rw [← Int.lt_zpow_iff_log_lt (by norm_num) h0]
        exact_mod_cast h
      omega
  refine ⟨(23 - f32_exponent q).toNat, ?_⟩
  unfold f32_quantum
  have : f32_exponent q - 23 = -((23 - f32_exponent q).toNat : ℤ) := by
    rw [Int.toNat_of_nonneg (by omega)]; ring
  rw [this, zpow_neg, zpow_natCast, one_div]

/-- Rounding does not cross an integer, below `2 ^ 24` in magnitude. -/
theorem f32_round_ge_int (q : ℚ) (n : ℤ) (h : |q| < 2 ^ 24) (hn : (n : ℚ) ≤ q) :
    (n : ℚ) ≤ f32_round q := by
  obtain ⟨j, hj⟩ := f32_quantum_small q h
  unfold f32_round
  rw [hj]
  have hp : (0 : ℚ) < 2 ^ j := by positivity
  have h1 : ((n * 2 ^ j : ℤ) : ℚ) ≤ q / (1 / 2 ^ j) := by
    push_cast
    rw [div_div_eq_mul_div, div_one]
    exact mul_le_mul_of_nonneg_right hn (le_of_lt hp)
  have h2 := round_half_even_ge _ _ h1
  have h3 : ((n * 2 ^ j : ℤ) : ℚ) ≤ (round_half_even (q / (1 / 2 ^ j)) : ℚ) := by
    exact_mod_cast h2
  push_cast at h3
  rw [mul_one_div, le_div_iff₀ hp]
  exact h3

theorem f32_round_le_int (q : ℚ) (n : ℤ) (h : |q| < 2 ^ 24) (hn : q ≤ (n : ℚ)) :
    f32_round q ≤ (n : ℚ) := by
  obtain ⟨j, hj⟩ := f32_quantum_small q h
  unfold f32_round
  rw [hj]
  have hp : (0 : ℚ) < 2 ^ j := by positivity
  have h1 : q / (1 / 2 ^ j) ≤ ((n * 2 ^ j : ℤ) : ℚ) := by
    push_cast
    rw [div_div_eq_mul_div, div_one]
    exact mul_le_mul_of_nonneg_right hn (le_of_lt hp)
  have h2 := round_half_even_le _ _ h1
  have h3 : (round_half_even (q / (1 / 2 ^ j)) : ℚ) ≤ ((n * 2 ^ j : ℤ) : ℚ) := by
    exact_mod_cast h2
  push_cast at h3
  rw [mul_one_div, div_le_iff₀ hp]
  exact h3

/-- Integers below `2 ^ 24` in magnitude are binary32 values. -/
theorem f32_round_int (n : ℤ) (h : |(n : ℚ)| < 2 ^ 24) : f32_round (n : ℚ) = (n : ℚ) :=
  le_antisymm (f32_round_le_int _ n h (le_refl _)) (f32_round_ge_int _ n h (le_refl _))

theorem f32_exponent_eq (q : ℚ) (e : ℤ) (he : -126 ≤ e) (h1 : (2 : ℚ) ^ e ≤ |q|)
    (h2 : |q| < (2 : ℚ) ^ (e + 1)) : f32_exponent q = e := by
  have hpos : 0 < |q| := lt_of_lt_of_le (by positivity) h1
  have hlog : Int.log 2 |q| = e := by
    apply le_antisymm
    · have : Int.log 2 |q| < e + 1 := by
        rw [← Int.lt_zpow_iff_log_lt (by norm_num) hpos]
        exact_mod_cast h2
      omega
    · rw [← Int.zpow_le_iff_le_log (by norm_num) hpos]
      exact_mod_cast h1
  unfold f32_exponent
  rw [hlog]
  exact max_eq_left he

theorem round_half_even_down (r : ℚ) (f : ℤ) (h1 : (f : ℚ) ≤ r) (h2 : r - f < 1 / 2) :
    round_half_even r = f := by
  have hf : ⌊r⌋ = f := by
    rw [Int.floor_eq_iff]; constructor
    · exact h1
    · linarith
  unfold round_half_even
  rw [hf, if_pos h2]

theorem round_half_even_up (r : ℚ) (f : ℤ) (h1 : 1 / 2 < r - f) (h2 : r < f + 1) :
    round_half_even r = f + 1 := by
  have hf : ⌊r⌋ = f := by
    rw [Int.floor_eq_iff]; constructor
    · linarith
    · exact h2
  unfold round_half_even
  rw [hf, if_neg (by linarith), if_pos h1]

theorem round_half_even_tie (r : ℚ) (f : ℤ) (h1 : r = f + 1 / 2) (h2 : f % 2 = 0) :
    round_half_even r = f := by
  have hf : ⌊r⌋ = f := by
    rw [Int.floor_eq_iff]; constructor <;> linarith
  unfold round_half_even
  rw [hf, if_neg (by linarith), if_neg (by linarith), if_pos h2]

/-- The rounding of a value whose binade and rounded significand are known. -/
theorem f32_round_eval (q : ℚ) (e n : ℤ) (he : -126 ≤ e) (h1 : (2 : ℚ) ^ e ≤ |q|)
    (h2 : |q| < (2 : ℚ) ^ (e + 1)) (hn : round_half_even (q / (2 : ℚ) ^ (e - 23)) = n) :
    f32_round q = (n : ℚ) * (2 : ℚ) ^ (e - 23) := by
  unfold f32_round f32_quantum
  rw [f32_exponent_eq q e he h1 h2, hn]

/-- In the unit interval the rounding error is at most `2 ^ (-25)`. -/
theorem f32_round_error_unit (q : ℚ) (h : |q| ≤ 1) : |f32_round q - q| ≤ 1 / 2 ^ 25 := by
  rcases eq_or_lt_of_le (abs_nonneg q) with h0 | h0
  · have hq : q = 0 := abs_eq_zero.mp h0.symm
    have := f32_round_int 0 (by norm_num)
    rw [hq]; simp only [Int.cast_zero] at this; rw [this]; norm_num
  rcases eq_or_lt_of_le h with h1 | h1
  · have hq : q = 1 ∨ q = -1 := by
      rcases abs_cases q with ⟨a, _⟩ | ⟨a, _⟩
      · left; linarith
      · right; linarith
    rcases hq with hq | hq
    · have := f32_round_int 1 (by norm_num)
      rw [hq]; simp only [Int.cast_one] at this; rw [this]; norm_num
    · have := f32_round_int (-1) (by norm_num)
      rw [hq]; simp only [Int.cast_neg, Int.cast_one] at this; rw [this]; norm_num
  · have he : f32_exponent q ≤ -1 := by
      unfold f32_exponent
      refine max_le ?_ (by norm_num)
      have : Int.log 2 |q| < 0 := by
        rw [← Int.lt_zpow_iff_log_lt (by norm_num) h0]
        simpa using h1
      omega
    have hquant : f32_quantum q ≤ 1 / 2 ^ 24 := by
      unfold f32_quantum
      calc (2 : ℚ) ^ (f32_exponent q - 23) ≤ (2 : ℚ) ^ (-24 : ℤ) :=
            zpow_le_zpow_right₀ (by norm_num) (by omega)
        _ = 1 / 2 ^ 24 := by norm_num
    calc |f32_round q - q| ≤ f32_quantum q / 2 := f32_round_error q
      _ ≤ 1 / 2 ^ 24 / 2 := by linarith
      _ = 1 / 2 ^ 25 := by norm_num

theorem f32_of_nat_small (n : Nat) (h : n < 16777216) : f32_of_nat n = (n : ℚ) := by
  have h2 : |(((n : ℤ)) : ℚ)| < 2 ^ 24 := by
    rw [abs_of_nonneg (by positivity)]
    have : ((n : ℤ) : ℚ) < ((16777216 : ℕ) : ℚ) := by exact_mod_cast h
    norm_num at this ⊢
    exact this
  have := f32_round_int (n : ℤ) h2
  simpa [f32_of_nat] using this

theorem f32_round_unit (q : ℚ) (h0 : 0 ≤ q) (h1 : q ≤ 1) :
    0 ≤ f32_round q ∧ f32_round q ≤ 1 := by
  have habs : |q| < 2 ^ 24 := by
    rw [abs_of_nonneg h0]; exact lt_of_le_of_lt h1 (by norm_num)
  constructor
  · have := f32_round_ge_int q 0 habs (by simpa using h0)
    simpa using this
  · have := f32_round_le_int q 1 habs (by simpa using h1)
    simpa using this

/-! ## Bounce physics: lemmas -/

theorem tick_position (box : text_box) :
    (render_ricocheting_texts box).position = vec2_add box.position box.velocity := by
  unfold render_ricocheting_texts
  dsimp only
  split_ifs <;> rfl

theorem tick_velocity_x (box : text_box) :
    (render_ricocheting_texts box).velocity.x =
      if f32_round (box.position.x + box.velocity.x) < 0 ∨
          f32_round (box.position.x + box.velocity.x) > 1280
      then -box.velocity.x else box.velocity.x := by
  unfold render_ricocheting_texts
  simp only [vec2_add, vec2_create, f32_add, SCREEN_WIDTH, SCREEN_HEIGHT, Nat.cast_ofNat]
  split_ifs <;> rfl

theorem tick_velocity_y (box : text_box) :
    (render_ricocheting_texts box).velocity.y =
      if f32_round (box.position.y + box.velocity.y) < 0 ∨
          f32_round (box.position.y + box.velocity.y) > 768
      then -box.velocity.y else box.velocity.y := by
  unfold render_ricocheting_texts
  simp only [vec2_add, vec2_create, f32_add, SCREEN_WIDTH, SCREEN_HEIGHT, Nat.cast_ofNat]
  split_ifs <;> rfl

/-- A sum between two integers of small magnitude rounds to a value between them. -/
theorem f32_round_between (q : ℚ) (lo hi : ℤ) (hlo : (lo : ℚ) ≤ q) (hhi : q ≤ (hi : ℚ))
    (h1 : -4096 ≤ lo) (h2 : hi ≤ 4096) :
    (lo : ℚ) ≤ f32_round q ∧ f32_round q ≤ (hi : ℚ) := by
  have hl : (-4096 : ℚ) ≤ (lo : ℚ) := by exact_mod_cast h1
  have hh : (hi : ℚ) ≤ (4096 : ℚ) := by exact_mod_cast h2
  have habs : |q| < 2 ^ 24 := by
    rw [abs_lt]; constructor
    · have : (-(2 : ℚ) ^ 24) < -4096 := by norm_num
      linarith
    · have : (4096 : ℚ) < 2 ^ 24 := by norm_num
      linarith
  exact ⟨f32_round_ge_int q lo habs hlo, f32_round_le_int q hi habs hhi⟩

theorem coord_ok_step (b : ℤ) (x v : ℚ) (hb : 2 ≤ b) (hB : b ≤ 4000)
    (h : coord_ok (b : ℚ) x v) :
    coord_ok (b : ℚ) (f32_round (x + v))
      (if f32_round (x + v) < 0 ∨ f32_round (x + v) > (b : ℚ) then -v else v) := by
  have hbq : (2 : ℚ) ≤ (b : ℚ) := by exact_mod_cast hb
  unfold coord_ok at h ⊢
  rcases h with ⟨h1, h2, h3 | h3⟩ | ⟨h1, h2, h3⟩ | ⟨h1, h2, h3⟩ <;> subst h3
  · obtain ⟨k1, k2⟩ := f32_round_between (x + 2) 2 (b + 2) (by push_cast; linarith)
      (by push_cast; linarith) (by norm_num) (by omega)
    push_cast at k1 k2
    split_ifs with hc
    · rcases hc with hc | hc
      · exfalso; linarith
      · right; right; exact ⟨hc, k2, by norm_num⟩
    · rw [not_or, not_lt, not_lt] at hc
      left; exact ⟨hc.1, hc.2, Or.inl rfl⟩
  · obtain ⟨k1, k2⟩ := f32_round_between (x + -2) (-2) (b - 2) (by push_cast; linarith)
      (by push_cast; linarith) (by norm_num) (by omega)
    push_cast at k1 k2
    split_ifs with hc
    · rcases hc with hc | hc
      · right; left; exact ⟨k1, hc, by norm_num⟩
      · exfalso; linarith
    · rw [not_or, not_lt, not_lt] at hc
      left; exact ⟨hc.1, hc.2, Or.inr rfl⟩
  · obtain ⟨k1, k2⟩ := f32_round_between (x + 2) 0 2 (by push_cast; linarith)
      (by push_cast; linarith) (by norm_num) (by norm_num)
    push_cast at k1 k2
    split_ifs with hc
    · rcases hc with hc | hc <;> exfalso <;> linarith
    · left; exact ⟨k1, by linarith, Or.inl rfl⟩
  · obtain ⟨k1, k2⟩ := f32_round_between (x + -2) (b - 2) b (by push_cast; linarith)
      (by linarith) (by omega) (by omega)
    push_cast at k1 k2
    split_ifs with hc
    · rcases hc with hc | hc <;> exfalso <;> linarith
    · left; exact ⟨by linarith, k2, Or.inr rfl⟩

theorem bounce_ticks_ok (box : text_box)
    (hx : coord_ok 1280 box.position.x box.velocity.x)
    (hy : coord_ok 768 box.position.y box.velocity.y) (n : Nat) :
    coord_ok 1280 (bounce_ticks n box).position.x (bounce_ticks n box).velocity.x ∧
    coord_ok 768 (bounce_ticks n box).position.y (bounce_ticks n box).velocity.y := by
  induction n with
  | zero => exact ⟨hx, hy⟩
  | succ n ih =>
    simp only [bounce_ticks, tick_position, tick_velocity_x, tick_velocity_y, vec2_add,
      vec2_create, f32_add]
    have sx := coord_ok_step 1280 _ _ (by norm_num) (by norm_num) (by exact_mod_cast ih.1)
    have sy := coord_ok_step 768 _ _ (by norm_num) (by norm_num) (by exact_mod_cast ih.2)
    exact ⟨by exact_mod_cast sx, by exact_mod_cast sy⟩

theorem coord_ok_bounds {bound x v : ℚ} (hb : 0 ≤ bound) (h : coord_ok bound x v) :
    -2 ≤ x ∧ x ≤ bound + 2 := by
  unfold coord_ok at h
  rcases h with ⟨h1, h2, _⟩ | ⟨h1, h2, _⟩ | ⟨h1, h2, _⟩ <;> constructor <;> linarith

theorem coord_ok_return (b : ℤ) {x v : ℚ} (hb : 2 ≤ b) (hB : b ≤ 4000)
    (h : coord_ok (b : ℚ) x v) (hout : x < 0 ∨ x > (b : ℚ)) :
    0 ≤ f32_round (x + v) ∧ f32_round (x + v) ≤ (b : ℚ) := by
  have hbq : (2 : ℚ) ≤ (b : ℚ) := by exact_mod_cast hb
  unfold coord_ok at h
  rcases h with ⟨h1, h2, _⟩ | ⟨h1, h2, h3⟩ | ⟨h1, h2, h3⟩
  · rcases hout with h | h <;> exfalso <;> linarith
  · subst h3
    obtain ⟨k1, k2⟩ := f32_round_between (x + 2) 0 2 (by push_cast; linarith)
      (by push_cast; linarith) (by norm_num) (by norm_num)
    push_cast at k1 k2
    exact ⟨k1, by linarith⟩
  · subst h3
    obtain ⟨k1, k2⟩ := f32_round_between (x + -2) (b - 2) b (by push_cast; linarith)
      (by linarith) (by omega) (by omega)
    push_cast at k1 k2
    exact ⟨by linarith, k2⟩

/-! ## Array access on a list split around the index -/

theorem arr_get_mid {α : Type} (pre : List α) (m : α) (rest : List α) (k : Int)
    (hk : k = (pre.length : Int)) : arr_get (pre ++ m :: rest) k = some m := by
  subst hk
  have h : (pre ++ m :: rest)[pre.length]? = some m := by
    rw [List.getElem?_append_right (le_refl _)]; simp
  simpa [arr_get] using h

theorem arr_set_mid {α : Type} (pre : List α) (m x : α) (rest : List α) (k : Int)
    (hk : k = (pre.length : Int)) : arr_set (pre ++ m :: rest) k x = some (pre ++ x :: rest) := by
  subst hk
  simp [arr_set]

theorem update_meme_spawn_time (now : Nat) (m : meme_image) :
    (update_meme now m).spawn_time = m.spawn_time := rfl

theorem update_meme_texture (now : Nat) (m : meme_image) :
    (update_meme now m).texture = m.texture := rfl

/-- The loop on a pool split as processed prefix, unprocessed window and rest:
it returns, leaves the prefix alone, and the window becomes a permutation of its
updated survivors. Only `memes`, `meme_count` and `released` are written. -/
theorem update_loop_window (now : Nat) :
    ∀ (fuel : Nat) (pre w post : List meme_image) (s : State),
      s.memes = pre ++ w ++ post → s.meme_count = (pre.length : Int) + (w.length : Int) →
      w.length ≤ fuel →
      ∃ s' w' post', update_loop now fuel (pre.length : Int) s = some s' ∧
        s'.memes = pre ++ w' ++ post' ∧
        s'.meme_count = (pre.length : Int) + (w'.length : Int) ∧
        List.Perm w' ((w.filter (survives s.blackout now)).map (update_meme now)) ∧
        s'.memes.length = s.memes.length ∧
        s' = { s with memes := s'.memes, meme_count := s'.meme_count,
                      released := s'.released } := by
  intro fuel
  induction fuel with
  | zero =>
    intro pre w post s hm hc hf
    have hw : w = [] := List.length_eq_zero.mp (Nat.le_zero.mp hf)
    subst hw
    refine ⟨s, [], post, ?_, hm, hc, ?_, rfl, rfl⟩
    · simp [update_loop, hc]
    · simp
  | succ fuel ih =>
    intro pre w post s hm hc hf
    cases w with
    | nil =>
      refine ⟨s, [], post, ?_, hm, hc, ?_, rfl, rfl⟩
      · simp [update_loop, hc]
      · simp
    | cons m w =>
      have hlt : (pre.length : Int) < s.meme_count := by
        rw [hc]; simp only [List.length_cons]; omega
      have hm1 : s.memes = pre ++ m :: (w ++ post) := by rw [hm]; simp
      rw [update_loop, if_pos hlt, hm1, arr_get_mid _ _ _ _ rfl]
      simp only [arr_set_mid _ _ _ _ _ rfl, update_meme_spawn_time, update_meme_texture]
      by_cases hrm : (s.blackout || decide (u32_sub now m.spawn_time > IMAGE_LIFETIME)) = true
      · -- the entity is removed
        have hsv : survives s.blackout now m = false := by simp [survives, hrm]
        rw [if_pos hrm]
        rcases List.eq_nil_or_concat w with hw | ⟨w0, l, hw⟩
        · subst hw
          have e1 : s.meme_count - 1 = (pre.length : Int) := by rw [hc]; simp
          obtain ⟨s', w', post', h1, h2, h3, h4, h5, h6⟩ :=
            ih pre [] (update_meme now m :: post)
              { s with memes := pre ++ update_meme now m :: post,
                       meme_count := s.meme_count - 1,
                       released := s.released ++ [m.texture] }
              (by simp) (by simp [e1]) (by simp)
          refine ⟨s', w', post', ?_, h2, h3, ?_, ?_, ?_⟩
          · rw [← h1, arr_get_mid _ _ _ _ e1]
            simp only [arr_set_mid _ _ _ _ _ rfl, sub_add_cancel, List.nil_append]
          · simpa [hsv] using h4
          · rw [h5]; simp
          · rw [h6]
        · subst hw
          rw [List.concat_eq_append] at hm hc hf ⊢
          have e1 : s.meme_count - 1 = ((pre ++ update_meme now m :: w0).length : Int) := by
            rw [hc]; simp; omega
          have e2 : pre ++ update_meme now m :: (w0 ++ [l] ++ post) =
              (pre ++ update_meme now m :: w0) ++ l :: post := by simp
          obtain ⟨s', w', post', h1, h2, h3, h4, h5, h6⟩ :=
            ih pre (l :: w0) (l :: post)
              { s with memes := pre ++ l :: (w0 ++ [l] ++ post),
                       meme_count := s.meme_count - 1,
                       released := s.released ++ [m.texture] }
              (by simp) (by rw [hc]; simp; omega) (by simp at hf ⊢; omega)
          refine ⟨s', w', post', ?_, h2, h3, ?_, ?_, ?_⟩
          · rw [← h1, e2, arr_get_mid _ _ _ _ e1]
            simp only [sub_add_cancel]
          · have hp : (l :: w0).Perm (w0 ++ [l]) := (List.perm_append_singleton l w0).symm
            have hfl : List.filter (survives s.blackout now) (m :: (w0 ++ [l])) =
                List.filter (survives s.blackout now) (w0 ++ [l]) := by
              simp [List.filter_cons, hsv]
            rw [hfl]
            exact h4.trans ((hp.filter _).map _)
          · rw [h5]; simp
          · rw [h6]
      · -- the entity stays
        have hsv : survives s.blackout now m = true := by simp [survives, hrm]
        rw [if_neg hrm]
        obtain ⟨s', w', post', h1, h2, h3, h4, h5, h6⟩ :=
          ih (pre ++ [update_meme now m]) w post
            { s with memes := pre ++ update_meme now m :: (w ++ post) }
            (by simp) (by rw [hc]; simp; omega) (by simp at hf ⊢; omega)
        refine ⟨s', update_meme now m :: w', post', ?_, ?_, ?_, ?_, ?_, ?_⟩
        · rw [← h1]; simp
        · rw [h2]; simp
        · rw [h3]; simp; omega
        · simp only [List.filter_cons, hsv, if_true, List.map_cons]
          exact List.Perm.cons _ h4
        · rw [h5]; simp
        · rw [h6]

/-- The pool update returns; the live entities afterwards are a permutation of
the updated survivors; it writes `memes`, `meme_count`, `released` and the clock. -/
theorem update_and_render_memes_spec (d : Nat) (s : State) (h0 : 0 ≤ s.meme_count)
    (h1 : s.meme_count.toNat ≤ s.memes.length) :
    ∃ s', update_and_render_memes d s = some s' ∧
      List.Perm (live s')
        (((live s).filter (survives s.blackout ((s.clock + d) % U32))).map
          (update_meme ((s.clock + d) % U32))) ∧
      s'.memes.length = s.memes.length ∧ 0 ≤ s'.meme_count ∧ s'.meme_count ≤ s.meme_count ∧
      s' = { s with memes := s'.memes, meme_count := s'.meme_count,
                    released := s'.released, clock := s.clock + d } := by
  obtain ⟨s', w', post', h2, h3, h4, h5, h6, h7⟩ :=
    update_loop_window ((s.clock + d) % U32) s.meme_count.toNat []
      (s.memes.take s.meme_count.toNat) (s.memes.drop s.meme_count.toNat)
      { s with clock := s.clock + d } (by simp)
      (by simp [List.length_take, Nat.min_eq_left h1, Int.toNat_of_nonneg h0])
      (by simp [List.length_take])
  have hperm : w'.Perm (((live s).filter (survives s.blackout ((s.clock + d) % U32))).map
      (update_meme ((s.clock + d) % U32))) := h5
  have hle : w'.length ≤ s.meme_count.toNat := by
    rw [hperm.length_eq, List.length_map]
    refine (List.length_filter_le _ _).trans ?_
    simp [live, List.length_take]
  refine ⟨s', h2, ?_, h6, ?_, ?_, ?_⟩
  · have : live s' = w' := by
      simp only [live, h3, h4, List.length_nil, Nat.cast_zero, zero_add, Int.toNat_ofNat,
        List.nil_append, List.take_left']
    rw [this]; exact hperm
  · rw [h4]; simp
  · rw [h4]; simp only [List.length_nil, Nat.cast_zero, zero_add]; omega
  · rw [h7]

/-! ## The entity update -/

theorem update_meme_position (now : Nat) (m : meme_image) :
    (update_meme now m).position.x = f32_round (m.position.x + m.velocity.x) ∧
      (update_meme now m).position.y = f32_round (m.position.y + m.velocity.y) :=
  ⟨rfl, rfl⟩

theorem update_meme_velocity (now : Nat) (m : meme_image) :
    (update_meme now m).velocity = m.velocity := rfl

/-- The scale of an entity within its lifetime: the rounded difference of one
and the rounded quotient, between zero and one, within `2 ^ (-24)` of the exact
value. -/
theorem update_meme_scale (now : Nat) (m : meme_image) (h : age now m ≤ IMAGE_LIFETIME) :
    (update_meme now m).scale = f32_round (1 - f32_round ((age now m : ℚ) / 10000)) ∧
      0 ≤ (update_meme now m).scale ∧ (update_meme now m).scale ≤ 1 ∧
      |(update_meme now m).scale - spec_scale now m| ≤ 1 / 2 ^ 24 := by
  have hage : age now m < 16777216 := lt_of_le_of_lt h (by decide)
  have ha0 : (0 : ℚ) ≤ (age now m : ℚ) := Nat.cast_nonneg _
  have ha1 : (age now m : ℚ) ≤ 10000 := by
    have : (age now m : ℚ) ≤ ((IMAGE_LIFETIME : ℕ) : ℚ) := by exact_mod_cast h
    simpa [IMAGE_LIFETIME] using this
  have hd0 : (0 : ℚ) ≤ (age now m : ℚ) / 10000 := div_nonneg ha0 (by norm_num)
  have hd1 : (age now m : ℚ) / 10000 ≤ 1 := by
    rw [div_le_one (by norm_num)]; exact ha1
  obtain ⟨f0, f1⟩ := f32_round_unit _ hd0 hd1
  have hs0 : (0 : ℚ) ≤ 1 - f32_round ((age now m : ℚ) / 10000) := by linarith
  have hs1 : 1 - f32_round ((age now m : ℚ) / 10000) ≤ 1 := by linarith
  obtain ⟨g0, g1⟩ := f32_round_unit _ hs0 hs1
  have hscale : (update_meme now m).scale =
      f32_round (1 - f32_round ((age now m : ℚ) / 10000)) := by
    have e1 : f32_of_nat (u32_sub now m.spawn_time) = (age now m : ℚ) :=
      f32_of_nat_small _ hage
    have e2 : f32_of_nat IMAGE_LIFETIME = 10000 := by
      have := f32_of_nat_small IMAGE_LIFETIME (by decide)
      simpa [IMAGE_LIFETIME] using this
    simp only [update_meme, f32_sub, f32_div, e1, e2]
    rw [if_neg (not_lt.mpr g0)]
  rw [hscale]
  refine ⟨rfl, g0, g1, ?_⟩
  have hspec : spec_scale now m = 1 - (age now m : ℚ) / 10000 := by
    unfold spec_scale clamp
    rw [min_eq_left (by linarith), max_eq_right (by linarith)]
  have err1 := f32_round_error_unit ((age now m : ℚ) / 10000)
    (by rw [abs_of_nonneg hd0]; exact hd1)
  have err2 := f32_round_error_unit (1 - f32_round ((age now m : ℚ) / 10000))
    (by rw [abs_of_nonneg hs0]; exact hs1)
  rw [hspec]
  rw [abs_le] at err1 err2 ⊢
  constructor
  · have : (1 : ℚ) / 2 ^ 24 = 1 / 2 ^ 25 + 1 / 2 ^ 25 := by norm_num
    linarith [err1.1, err1.2, err2.1, err2.2]
  · have : (1 : ℚ) / 2 ^ 24 = 1 / 2 ^ 25 + 1 / 2 ^ 25 := by norm_num
    linarith [err1.1, err1.2, err2.1, err2.2]

theorem f32_round_half : f32_round (1 / 2) = 1 / 2 := by
  rw [f32_round_eval (1 / 2) (-1) 8388608 (by norm_num)
    (by rw [abs_of_pos (by norm_num)]; norm_num)
    (by rw [abs_of_pos (by norm_num)]; norm_num)
    (round_half_even_down _ _ (by norm_num) (by norm_num))]
  norm_num

theorem f32_round_third : f32_round (3333 / 10000) = 2795923 / 8388608 := by
  rw [f32_round_eval (3333 / 10000) (-2) 11183692 (by norm_num)
    (by rw [abs_of_pos (by norm_num)]; norm_num)
    (by rw [abs_of_pos (by norm_num)]; norm_num)
    (round_half_even_down _ _ (by norm_num) (by norm_num))]
  norm_num

theorem f32_round_two_thirds :
    f32_round (1 - 2795923 / 8388608) = 5592685 / 8388608 := by
  rw [f32_round_eval (1 - 2795923 / 8388608) (-1) 11185370 (by norm_num)
    (by rw [abs_of_pos (by norm_num)]; norm_num)
    (by rw [abs_of_pos (by norm_num)]; norm_num)
    (round_half_even_down _ _ (by norm_num) (by norm_num))]
  norm_num

theorem f32_round_edge : f32_round (1280 + 1 / 16384) = 1280 := by
  rw [f32_round_eval (1280 + 1 / 16384) 10 10485760 (by norm_num)
    (by rw [abs_of_pos (by norm_num)]; norm_num)
    (by rw [abs_of_pos (by norm_num)]; norm_num)
    (round_half_even_tie _ _ (by norm_num) (by norm_num))]
  norm_num

theorem survives_eq (now : Nat) (m : meme_image) :
    survives false now m = decide (age now m ≤ IMAGE_LIFETIME) := by
  unfold survives age
  by_cases h : u32_sub now m.spawn_time ≤ IMAGE_LIFETIME
  · simp [h, not_lt.mpr h]
  · simp [h, not_le.mp h]

theorem survives_blackout (now : Nat) (m : meme_image) : survives true now m = false := by
  simp [survives]

/-! ## The pool invariant -/

theorem pool_ok_init (e0 : InitEnv) : pool_ok (main_init e0) := by
  simp [pool_ok, main_init, MAX_MEMES]

theorem pool_ok_toNat_le {s : State} (h : pool_ok s) : s.meme_count.toNat ≤ s.memes.length := by
  rcases h with ⟨h1, h2, h3⟩
  rw [h1]; simp only [MAX_MEMES] at h3 ⊢; omega

theorem spawn_meme_pool_ok (e : SpawnEnv) (s s' : State) (h : pool_ok s)
    (hs : spawn_meme e s = some s') : pool_ok s' := by
  rcases h with ⟨h1, h2, h3⟩
  unfold spawn_meme at hs
  split_ifs at hs with hrej hz
  · cases hs; exact ⟨h1, h2, h3⟩
  · have hlt : s.meme_count < MAX_MEMES := by
      simp only [Bool.or_eq_true, decide_eq_true_eq, not_or, not_le] at hrej
      exact lt_of_not_le (by simpa using hrej.2)
    cases hl : e.load with
    | none =>
      rw [hl] at hs; cases hs; exact ⟨h1, h2, h3⟩
    | some r =>
      obtain ⟨texture, width, height⟩ := r
      rw [hl] at hs
      simp only [SDL_GetTicks, arr_set] at hs
      split_ifs at hs with hb
      cases hs
      refine ⟨?_, ?_, ?_⟩
      · simpa using h1
      · show 0 ≤ s.meme_count + 1
        omega
      · show s.meme_count + 1 ≤ MAX_MEMES
        omega

theorem update_pool_ok (d : Nat) (s s' : State) (h : pool_ok s)
    (hs : update_and_render_memes d s = some s') : pool_ok s' := by
  obtain ⟨s'', h1, _, h3, h4, h5, _⟩ := update_and_render_memes_spec d s h.2.1 (pool_ok_toNat_le h)
  rw [h1] at hs; cases hs
  exact ⟨h3.trans h.1, h4, h5.trans h.2.2⟩

theorem apply_op_pool_ok (op : PoolOp) (s s' : State) (h : pool_ok s)
    (hs : apply_op op s = some s') : pool_ok s' := by
  cases op with
  | spawn e => exact spawn_meme_pool_ok e s s' h hs
  | update d => exact update_pool_ok d s s' h hs
  | clear =>
    simp only [apply_op, Option.some.injEq] at hs; subst hs
    exact ⟨h.1, le_refl _, by simp [MAX_MEMES]⟩
  | blackout =>
    simp only [apply_op, Option.some.injEq] at hs; subst hs
    exact h

theorem run_ops_pool_ok (ops : List PoolOp) : ∀ (s s' : State), pool_ok s →
    run_ops ops s = some s' → pool_ok s' := by
  induction ops with
  | nil => intro s s' h hs; simp only [run_ops, Option.some.injEq] at hs; subst hs; exact h
  | cons op ops ih =>
    intro s s' h hs
    simp only [run_ops] at hs
    cases hop : apply_op op s with
    | none => rw [hop] at hs; cases hs
    | some s1 =>
      rw [hop] at hs
      exact ih s1 s' (apply_op_pool_ok op s s1 h hop) hs

/-! ## The scene invariant along the frame loop -/

theorem u32_sub_of_le (a b : Nat) (hb : b ≤ a) (ha : a < U32) : u32_sub a b = a - b := by
  unfold u32_sub U32 at *
  omega

theorem scene_same_refl (s : State) : scene_same s s :=
  ⟨rfl, rfl, rfl, rfl, rfl, rfl, rfl, rfl, le_refl _⟩

theorem scene_same_trans {a b c : State} (h1 : scene_same a b) (h2 : scene_same b c) :
    scene_same a c := by
  obtain ⟨a1, a2, a3, a4, a5, a6, a7, a8, a9⟩ := h1
  obtain ⟨b1, b2, b3, b4, b5, b6, b7, b8, b9⟩ := h2
  exact ⟨b1.trans a1, b2.trans a2, b3.trans a3, b4.trans a4, b5.trans a5, b6.trans a6,
    b7.trans a7, b8.trans a8, a9.trans b9⟩

theorem scene_ok_of_same {s s' : State} (h : scene_ok s) (hs : scene_same s s') :
    scene_ok s' := by
  obtain ⟨e1, e2, e3, e4, e5, e6, e7, e8, e9⟩ := hs
  obtain ⟨h1, h2, h3, h4, h5, h6, h7⟩ := h
  unfold scene_ok
  rw [e1, e2, e3, e4, e5, e6, e7, e8]
  refine ⟨h1, h2, h3, h4, h5, h6, ?_⟩
  intro hc
  obtain ⟨k1, k0, k2, k3, k4⟩ := h7 (lt_of_le_of_lt e9 hc)
  exact ⟨k1.trans e9, k0.trans e9, k2.trans e9, k3, k4⟩

theorem scene_ok_init (e0 : InitEnv) : scene_ok (main_init e0) := by
  unfold scene_ok main_init
  simp

theorem spawn_meme_scene_same (e : SpawnEnv) (s s' : State)
    (hs : spawn_meme e s = some s') : scene_same s s' := by
  unfold spawn_meme at hs
  split_ifs at hs with hrej hz
  · cases hs; exact scene_same_refl s
  · cases hl : e.load with
    | none =>
      rw [hl] at hs; cases hs
      exact ⟨rfl, rfl, rfl, rfl, rfl, rfl, rfl, rfl, le_refl _⟩
    | some r =>
      obtain ⟨texture, width, height⟩ := r
      rw [hl] at hs
      simp only [SDL_GetTicks, arr_set] at hs
      split_ifs at hs with hb
      cases hs
      exact ⟨rfl, rfl, rfl, rfl, rfl, rfl, rfl, rfl, Nat.le_add_right _ _⟩

theorem spawn_step_scene_same (e : FrameEnv) (s s' : State)
    (hs : spawn_step e s = some s') : scene_same s s' := by
  unfold spawn_step at hs
  simp only [SDL_GetTicks] at hs
  split_ifs at hs with h1 h2 h3
  · split at hs
    · cases hs
    · rename_i s1 hsp
      cases hs
      obtain ⟨a1, a2, a3, a4, a5, a6, a7, a8, a9⟩ := spawn_meme_scene_same _ _ _ hsp
      refine ⟨a1, a2, a3, a4, a5, a6, a7, a8, ?_⟩
      have : s.clock ≤ s1.clock := le_trans (by simp only; omega) a9
      exact this.trans (Nat.le_add_right _ _)
  · cases hs
    exact ⟨rfl, rfl, rfl, rfl, rfl, rfl, rfl, rfl, by simp only; omega⟩
  · cases hs
    exact ⟨rfl, rfl, rfl, rfl, rfl, rfl, rfl, rfl, by simp only; omega⟩
  · cases hs; exact scene_same_refl s

theorem spawn_step_pool_ok (e : FrameEnv) (s s' : State) (h : pool_ok s)
    (hs : spawn_step e s = some s') : pool_ok s' := by
  unfold spawn_step at hs
  simp only [SDL_GetTicks] at hs
  split_ifs at hs with h1 h2 h3
  · split at hs
    · cases hs
    · rename_i s1 hsp
      cases hs
      have hp : pool_ok s1 := by
        apply spawn_meme_pool_ok _ _ _ _ hsp
        exact h
      exact hp
  · cases hs; exact h
  · cases hs; exact h
  · cases hs; exact h

theorem blackout_step_pool (e : FrameEnv) (s : State) :
    (blackout_step e s).memes = s.memes ∧ (blackout_step e s).meme_count = s.meme_count := by
  unfold blackout_step
  split_ifs <;> exact ⟨rfl, rfl⟩

theorem blackout_step_scene_ok (e : FrameEnv) (s : State) (h : scene_ok s) :
    scene_ok (blackout_step e s) := by
  unfold blackout_step
  split_ifs with hc
  · obtain ⟨h1, h2, h3, h4, h5, h6, h7⟩ := h
    have hcs : s.credits_started = false := by
      cases hcr : s.credits_started with
      | false => rfl
      | true => have := h2 hcr; rw [hc.2] at this; cases this
    have hlog : s.second_scream_log = [] := h4 (h3 hcs)
    simp only [scene_ok, SDL_GetTicks, play_audio]
    refine ⟨fun _ => ⟨trivial, hcs⟩, fun _ => trivial, h3, h4, h5, h6, ?_⟩
    intro hclk
    have hclk0 : s.clock < U32 := lt_of_le_of_lt (Nat.le_add_right _ _) hclk
    obtain ⟨k1, k0, k2, k3, k4⟩ := h7 hclk0
    refine ⟨Nat.mod_le _ _, k0.trans (Nat.le_add_right _ _), k2.trans (Nat.le_add_right _ _),
      ?_, ?_⟩
    · intro hcr; rw [hcs] at hcr; cases hcr
    · rw [hlog]; intro t ht; cases ht
  · exact h

theorem ricochet_step_pool (e : FrameEnv) (s : State) (h : pool_ok s) :
    pool_ok (ricochet_step e s) := by
  unfold ricochet_step
  simp only [SDL_GetTicks, start_credits, play_audio]
  split_ifs
  · exact ⟨h.1, le_refl _, by simp [MAX_MEMES]⟩
  · exact h
  · exact h

theorem ricochet_step_scene_ok (e : FrameEnv) (s : State) (h : scene_ok s) :
    scene_ok (ricochet_step e s) := by
  unfold ricochet_step
  simp only [SDL_GetTicks, start_credits, play_audio]
  obtain ⟨h1, h2, h3, h4, h5, h6, h7⟩ := h
  split_ifs with ha hd
  · obtain ⟨hb, hcs⟩ := h1 ha
    have hlog : s.second_scream_log = [] := h4 (h3 hcs)
    simp only [scene_ok]
    refine ⟨?_, fun _ => hb, ?_, h4, h5, ?_, ?_⟩
    · intro hf; cases hf
    · intro hf; cases hf
    · rw [hlog]; intro t ht; cases ht
    · intro hclk
      have hclk1 : s.clock + e.dt_ricochet_check < U32 := by omega
      have hclk0 : s.clock < U32 := by omega
      obtain ⟨k1, k0, k2, k3, k4⟩ := h7 hclk0
      rw [Nat.mod_eq_of_lt hclk1, u32_sub_of_le _ _ (by omega) hclk1] at hd
      refine ⟨by omega, (Nat.mod_le _ _).trans (Nat.le_add_right _ _), Nat.mod_le _ _, ?_, ?_⟩
      · intro _
        rw [Nat.mod_eq_of_lt (by omega)]
        omega
      · rw [hlog]; intro t ht; cases ht
  · exact scene_ok_of_same ⟨h1, h2, h3, h4, h5, h6, h7⟩
      ⟨rfl, rfl, rfl, rfl, rfl, rfl, rfl, rfl, Nat.le_add_right _ _⟩
  · exact ⟨h1, h2, h3, h4, h5, h6, h7⟩

theorem second_scream_step_pool (e : FrameEnv) (s : State) :
    (second_scream_step e s).memes = s.memes ∧
      (second_scream_step e s).meme_count = s.meme_count := by
  unfold second_scream_step
  simp only [SDL_GetTicks, play_audio]
  split_ifs <;> exact ⟨rfl, rfl⟩

theorem second_scream_step_scene_ok (e : FrameEnv) (s : State) (h : scene_ok s) :
    scene_ok (second_scream_step e s) := by
  unfold second_scream_step
  simp only [SDL_GetTicks, play_audio]
  obtain ⟨h1, h2, h3, h4, h5, h6, h7⟩ := h
  split_ifs with ha hd
  · have hlog : s.second_scream_log = [] := h4 ha.2
    have hra : s.ricochet_active = false := by
      cases hr : s.ricochet_active with
      | false => rfl
      | true => have := (h1 hr).2; rw [ha.1] at this; cases this
    simp only [scene_ok, hlog, hra, ha.1, List.nil_append, List.mem_singleton, forall_eq,
      List.length_singleton, le_refl]
    refine ⟨?_, fun _ => h2 ha.1, ?_, ?_, trivial, hd, ?_⟩
    · intro hf; cases hf
    · intro hf; cases hf
    · intro hf; cases hf
    · intro hclk
      have hclk0 : s.clock < U32 := by omega
      obtain ⟨k1, k0, k2, k3, k4⟩ := h7 hclk0
      rw [Nat.mod_eq_of_lt hclk, u32_sub_of_le _ _ (by omega) hclk] at hd
      rw [Nat.mod_eq_of_lt hclk]
      exact ⟨by omega, by omega, by omega, fun _ => k3 ha.1, by omega⟩
  · exact scene_ok_of_same ⟨h1, h2, h3, h4, h5, h6, h7⟩
      ⟨rfl, rfl, rfl, rfl, rfl, rfl, rfl, rfl, Nat.le_add_right _ _⟩
  · exact ⟨h1, h2, h3, h4, h5, h6, h7⟩

theorem text_step_scene_same (s : State) : scene_same s (text_step s) := by
  unfold text_step
  split_ifs
  · exact ⟨rfl, rfl, rfl, rfl, rfl, rfl, rfl, rfl, le_refl _⟩
  · exact scene_same_refl s

theorem text_step_pool (s : State) :
    (text_step s).memes = s.memes ∧ (text_step s).meme_count = s.meme_count := by
  unfold text_step
  split_ifs <;> exact ⟨rfl, rfl⟩

theorem update_step_ok (e : FrameEnv) (s s' : State) (h : pool_ok s)
    (hs : update_step e s = some s') : pool_ok s' ∧ scene_same s s' := by
  unfold update_step at hs
  split_ifs at hs with hb
  · refine ⟨update_pool_ok _ _ _ h hs, ?_⟩
    obtain ⟨s'', h1, _, _, _, _, h6⟩ :=
      update_and_render_memes_spec e.dt_update s h.2.1 (pool_ok_toNat_le h)
    rw [h1] at hs; cases hs
    rw [h6]
    exact ⟨rfl, rfl, rfl, rfl, rfl, rfl, rfl, rfl, Nat.le_add_right _ _⟩
  · cases hs; exact ⟨h, scene_same_refl s⟩

theorem blackout_step_latch (e : FrameEnv) (s : State) :
    (blackout_step e s).second_scream_triggered = s.second_scream_triggered ∧
      (blackout_step e s).second_scream_log = s.second_scream_log := by
  unfold blackout_step
  split_ifs <;> exact ⟨rfl, rfl⟩

theorem ricochet_step_latch (e : FrameEnv) (s : State) :
    (ricochet_step e s).second_scream_triggered = s.second_scream_triggered ∧
      (ricochet_step e s).second_scream_log = s.second_scream_log := by
  unfold ricochet_step
  simp only [SDL_GetTicks, start_credits, play_audio]
  split_ifs <;> exact ⟨rfl, rfl⟩

theorem second_scream_step_latch (e : FrameEnv) (s : State)
    (ht : s.second_scream_triggered = true) : second_scream_step e s = s := by
  unfold second_scream_step
  rw [if_neg]
  rw [ht]; simp

/-- One frame keeps the pool bounds and the scene invariant, and keeps the
second scream latch and log once the latch is set. -/
theorem frame_ok (e : FrameEnv) (s s' : State) (hp : pool_ok s) (hs : scene_ok s)
    (h : frame e s = some s') :
    pool_ok s' ∧ scene_ok s' ∧
      (s.second_scream_triggered = true →
        s'.second_scream_triggered = true ∧ s'.second_scream_log = s.second_scream_log) := by
  unfold frame at h
  split at h
  · cases h
  · rename_i s1 h1
    have p1 := spawn_step_pool_ok e s s1 hp h1
    have m1 := spawn_step_scene_same e s s1 h1
    have c1 := scene_ok_of_same hs m1
    have p2 : pool_ok (blackout_step e s1) := by
      obtain ⟨a, b⟩ := blackout_step_pool e s1
      unfold pool_ok; rw [a, b]; exact p1
    have c2 := blackout_step_scene_ok e s1 c1
    have p3 := ricochet_step_pool e _ p2
    have c3 := ricochet_step_scene_ok e _ c2
    have p4 : pool_ok (second_scream_step e (ricochet_step e (blackout_step e s1))) := by
      obtain ⟨a, b⟩ := second_scream_step_pool e (ricochet_step e (blackout_step e s1))
      unfold pool_ok; rw [a, b]; exact p3
    have c4 := second_scream_step_scene_ok e _ c3
    have p5 : pool_ok (text_step (second_scream_step e (ricochet_step e (blackout_step e s1)))) := by
      obtain ⟨a, b⟩ := text_step_pool (second_scream_step e (ricochet_step e (blackout_step e s1)))
      unfold pool_ok; rw [a, b]; exact p4
    have m5 := text_step_scene_same (second_scream_step e (ricochet_step e (blackout_step e s1)))
    have c5 := scene_ok_of_same c4 m5
    obtain ⟨p6, m6⟩ := update_step_ok e _ s' p5 h
    have m56 := scene_same_trans m5 m6
    refine ⟨p6, scene_ok_of_same c5 m6, ?_⟩
    · intro ht
      have t1 : s1.second_scream_triggered = true := by rw [m1.2.2.2.2.2.2.1]; exact ht
      have t3 : (ricochet_step e (blackout_step e s1)).second_scream_triggered = true := by
        rw [(ricochet_step_latch e _).1, (blackout_step_latch e _).1]; exact t1
      have e4 := second_scream_step_latch e _ t3
      rw [e4] at m56
      refine ⟨?_, ?_⟩
      · rw [m56.2.2.2.2.2.2.1]; exact t3
      · rw [m56.2.2.2.2.2.2.2.1, (ricochet_step_latch e _).2, (blackout_step_latch e _).2,
          m1.2.2.2.2.2.2.2.1]

theorem frames_ok (es : List FrameEnv) : ∀ (s s' : State), pool_ok s → scene_ok s →
    frames es s = some s' →
    pool_ok s' ∧ scene_ok s' ∧
      (s.second_scream_triggered = true →
        s'.second_scream_triggered = true ∧ s'.second_scream_log = s.second_scream_log) := by
  induction es with
  | nil =>
    intro s s' hp hs h
    simp only [frames, Option.some.injEq] at h; subst h
    exact ⟨hp, hs, fun ht => ⟨ht, rfl⟩⟩
  | cons e es ih =>
    intro s s' hp hs h
    simp only [frames] at h
    split at h
    · cases h
    · rename_i s1 h1
      obtain ⟨p1, c1, l1⟩ := frame_ok e s s1 hp hs h1
      obtain ⟨p2, c2, l2⟩ := ih s1 s' p1 c1 h
      refine ⟨p2, c2, ?_⟩
      intro ht
      obtain ⟨a, b⟩ := l1 ht
      obtain ⟨c, d⟩ := l2 a
      exact ⟨c, d.trans b⟩

/-! ## What holds of a spawn that is not rejected -/

/-- With at least one asset file, a spawn that is not rejected asks the loader
for an index below `meme_file_count`; when the load fails the pool is as it was
and only the loader call is recorded. -/
theorem spawn_meme_load_failure (e : SpawnEnv) (s : State) (hb : s.blackout = false)
    (hc : s.meme_count < MAX_MEMES) (hf : 0 < s.meme_file_count) (hl : e.load = none) :
    spawn_meme e s =
        some { s with load_calls := s.load_calls ++ [e.rand_index % s.meme_file_count] } ∧
      e.rand_index % s.meme_file_count < s.meme_file_count := by
  refine ⟨?_, Nat.mod_lt _ hf⟩
  unfold spawn_meme
  rw [if_neg, if_neg (Nat.pos_iff_ne_zero.mp hf), hl]
  simp [hb, not_le.mpr hc]

/-- Every text box that `main` initialises starts on the screen with speed two
in each coordinate. -/
theorem init_text_box_start (rand_max : Nat) (r : BoxDraws) :
    (0 ≤ (init_text_box rand_max r).position.x ∧ (init_text_box rand_max r).position.x < 1280) ∧
    (0 ≤ (init_text_box rand_max r).position.y ∧ (init_text_box rand_max r).position.y < 768) ∧
    ((init_text_box rand_max r).velocity.x = 2 ∨ (init_text_box rand_max r).velocity.x = -2) ∧
    ((init_text_box rand_max r).velocity.y = 2 ∨ (init_text_box rand_max r).velocity.y = -2) := by
  have hx : r.rand_x % SCREEN_WIDTH < 1280 := Nat.mod_lt _ (by decide)
  have hy : r.rand_y % SCREEN_HEIGHT < 768 := Nat.mod_lt _ (by decide)
  have ex := f32_of_nat_small (r.rand_x % SCREEN_WIDTH) (by omega)
  have ey := f32_of_nat_small (r.rand_y % SCREEN_HEIGHT) (by omega)
  have e2 : f32_of_int 2 = 2 := by
    have := f32_round_int 2 (by norm_num)
    simpa [f32_of_int] using this
  have em2 : f32_of_int (-2) = -2 := by
    have := f32_round_int (-2) (by norm_num)
    simpa [f32_of_int] using this
  simp only [init_text_box, vec2_create, TEXT_BOX_SPEED, ex, ey]
  refine ⟨⟨Nat.cast_nonneg _, by exact_mod_cast hx⟩, ⟨Nat.cast_nonneg _, by exact_mod_cast hy⟩,
    ?_, ?_⟩
  · split_ifs
    · left; simpa using e2
    · right; simpa using em2
  · split_ifs
    · left; simpa using e2
    · right; simpa using em2

/-! ## Claims about the entity pool -/

/-- C1: in every state reached from the initial state by spawns (any draws, any
load result), pool updates (any clock value), ricochet-exit clears and the
blackout trigger, the pool count lies between zero and `MAX_MEMES`; and from
every such state the pool update returns. -/
theorem pool_count_within_capacity (e0 : InitEnv) (ops : List PoolOp) (s : State)
    (h : run_ops ops (main_init e0) = some s) :
    (0 ≤ s.meme_count ∧ s.meme_count ≤ MAX_MEMES) ∧
      ∀ d : Nat, ∃ s', update_and_render_memes d s = some s' := by
  have hp := run_ops_pool_ok ops (main_init e0) s (pool_ok_init e0) h
  refine ⟨hp.2, fun d => ?_⟩
  obtain ⟨s', h1, _⟩ := update_and_render_memes_spec d s hp.2.1 (pool_ok_toNat_le hp)
  exact ⟨s', h1⟩

/-- A spawn, an update and a clear from the initial state stay within capacity. -/
theorem pool_count_within_capacity_witness :
    ∃ s, run_ops sample_ops (main_init one_file_init) = some s ∧
      (0 ≤ s.meme_count ∧ s.meme_count ≤ MAX_MEMES) ∧
      ∀ d : Nat, ∃ s', update_and_render_memes d s = some s' := by
  have h : (run_ops sample_ops (main_init one_file_init)).isSome = true := by decide
  obtain ⟨s, hs⟩ := Option.isSome_iff_exists.mp h
  exact ⟨s, hs, pool_count_within_capacity one_file_init sample_ops s hs⟩

theorem one_meme_state_finite :
    ∀ m ∈ live one_meme_state, f32_finite (m.position.x + m.velocity.x) ∧
      f32_finite (m.position.y + m.velocity.y) := by
  intro m hm
  have hlive : live one_meme_state = [one_meme] := rfl
  rw [hlive, List.mem_singleton] at hm
  subst hm
  constructor <;>
    · unfold f32_finite
      norm_num [one_meme, vec2_create, abs_lt]

/-- C2 as stated fails: the entity of age 3333 comes out of the pool update
with scale `5592685 / 8388608`, the binary32 result, where the claim's formula
`clamp(1 - age / 10000, 0, 1)` gives `6667 / 10000`. -/
theorem scale_not_exact_quotient :
    live one_meme_state = [one_meme] ∧ age 3333 one_meme = 3333 ∧
      Option.map live_scales (update_and_render_memes 3333 one_meme_state) =
        some [5592685 / 8388608] ∧
      spec_scale 3333 one_meme = 6667 / 10000 ∧
      (5592685 / 8388608 : ℚ) ≠ 6667 / 10000 := by
  have hlive : live one_meme_state = [one_meme] := rfl
  have hage : age 3333 one_meme = 3333 := by decide
  refine ⟨hlive, hage, ?_, ?_, by norm_num⟩
  · obtain ⟨s', h1, h2, _⟩ :=
      update_and_render_memes_spec 3333 one_meme_state (by decide) (by decide)
    have hnow : (one_meme_state.clock + 3333) % U32 = 3333 := by decide
    have hsv : survives one_meme_state.blackout 3333 one_meme = true := by decide
    rw [hnow, hlive] at h2
    simp only [List.filter_cons, hsv, if_true, List.filter_nil, List.map_cons, List.map_nil,
      List.perm_singleton] at h2
    rw [h1]
    simp only [Option.map_some', live_scales, h2, List.map_cons, List.map_nil]
    have hs := (update_meme_scale 3333 one_meme (by decide)).1
    rw [hage] at hs
    rw [hs]
    have e : ((3333 : ℕ) : ℚ) / 10000 = 3333 / 10000 := by norm_num
    rw [e, f32_round_third, f32_round_two_thirds]
  · unfold spec_scale clamp
    rw [hage]
    norm_num

/-- C2, as amended: one pool update on a pool with count between zero and
`MAX_MEMES`, whose live entities have finite coordinates that stay finite when
the velocity is added, returns. In blackout the pool is empty afterwards.
Otherwise the live entities afterwards are, as a multiset, the previously live
entities of age at most `IMAGE_LIFETIME`, each updated once: texture, velocity
and spawn time unchanged, position the binary32 sum of position and velocity,
scale the binary32 value of `1 - age / 10000` (quotient and difference each
rounded), which lies between zero and one, is within `2 ^ (-24)` of
`clamp(1 - age / 10000, 0, 1)` and is one half at age 5000. The hypothesis
`hfin` marks the pools on which the embedding, which has no infinities, follows
the code. -/
theorem update_and_render_memes_binary32 (d : Nat) (s : State)
    (hlen : s.memes.length = MAX_MEMES.toNat) (h0 : 0 ≤ s.meme_count)
    (h1 : s.meme_count ≤ MAX_MEMES)
    (hfin : ∀ m ∈ live s, f32_finite (m.position.x + m.velocity.x) ∧
      f32_finite (m.position.y + m.velocity.y)) :
    ∃ s', update_and_render_memes d s = some s' ∧
      (s.blackout = true → s'.meme_count = 0 ∧ live s' = []) ∧
      (s.blackout = false →
        ((live s' : List meme_image) : Multiset meme_image) =
          Multiset.map (update_meme ((s.clock + d) % U32))
            (Multiset.filter (fun m => age ((s.clock + d) % U32) m ≤ IMAGE_LIFETIME)
              ((live s : List meme_image) : Multiset meme_image))) ∧
      (∀ m ∈ live s, age ((s.clock + d) % U32) m ≤ IMAGE_LIFETIME →
        (update_meme ((s.clock + d) % U32) m).texture = m.texture ∧
        (update_meme ((s.clock + d) % U32) m).velocity = m.velocity ∧
        (update_meme ((s.clock + d) % U32) m).spawn_time = m.spawn_time ∧
        (update_meme ((s.clock + d) % U32) m).position.x =
          f32_round (m.position.x + m.velocity.x) ∧
        (update_meme ((s.clock + d) % U32) m).position.y =
          f32_round (m.position.y + m.velocity.y) ∧
        (update_meme ((s.clock + d) % U32) m).scale =
          f32_round (1 - f32_round ((age ((s.clock + d) % U32) m : ℚ) / 10000)) ∧
        0 ≤ (update_meme ((s.clock + d) % U32) m).scale ∧
        (update_meme ((s.clock + d) % U32) m).scale ≤ 1 ∧
        |(update_meme ((s.clock + d) % U32) m).scale - spec_scale ((s.clock + d) % U32) m| ≤
          1 / 2 ^ 24) ∧
      (∀ m ∈ live s, age ((s.clock + d) % U32) m = 5000 →
        (update_meme ((s.clock + d) % U32) m).scale = 1 / 2) := by
  obtain ⟨s', h2, h3, _, h5, _, _⟩ :=
    update_and_render_memes_spec d s h0 (pool_ok_toNat_le ⟨hlen, h0, h1⟩)
  refine ⟨s', h2, ?_, ?_, ?_, ?_⟩
  · intro hb
    rw [hb] at h3
    have hnil : live s' = [] := by
      have hf : List.filter (survives true ((s.clock + d) % U32)) (live s) = [] := by
        rw [List.filter_eq_nil_iff]; intro m _; simp [survives_blackout]
      rw [hf] at h3
      simpa using h3
    refine ⟨?_, hnil⟩
    have hl : (live s').length = 0 := by rw [hnil]; rfl
    have hl2 : s'.meme_count.toNat ≤ s'.memes.length :=
      pool_ok_toNat_le (update_pool_ok d s s' ⟨hlen, h0, h1⟩ h2)
    simp only [live, List.length_take, Nat.min_eq_left hl2] at hl
    omega
  · intro hb
    rw [hb] at h3
    rw [Multiset.filter_coe, Multiset.map_coe, Multiset.coe_eq_coe]
    have hfun : survives false ((s.clock + d) % U32) =
        fun m => decide (age ((s.clock + d) % U32) m ≤ IMAGE_LIFETIME) :=
      funext (survives_eq _)
    rw [hfun] at h3
    exact h3
  · intro m _ hm
    obtain ⟨k1, k2, k3, k4⟩ := update_meme_scale ((s.clock + d) % U32) m hm
    exact ⟨rfl, rfl, rfl, rfl, rfl, k1, k2, k3, k4⟩
  · intro m _ hm
    have hle : age ((s.clock + d) % U32) m ≤ IMAGE_LIFETIME := by rw [hm]; decide
    rw [(update_meme_scale ((s.clock + d) % U32) m hle).1, hm]
    have e : ((5000 : ℕ) : ℚ) / 10000 = 1 / 2 := by norm_num
    have e2 : (1 : ℚ) - 1 / 2 = 1 / 2 := by norm_num
    rw [e, f32_round_half, e2, f32_round_half]

/-- The amended postcondition at a pool with one entity, updated at age 5000. -/
theorem update_and_render_memes_binary32_witness :
    (∀ m ∈ live one_meme_state, f32_finite (m.position.x + m.velocity.x) ∧
      f32_finite (m.position.y + m.velocity.y)) ∧
    ∃ s', update_and_render_memes 5000 one_meme_state = some s' ∧
      (one_meme_state.blackout = true → s'.meme_count = 0 ∧ live s' = []) ∧
      (one_meme_state.blackout = false →
        ((live s' : List meme_image) : Multiset meme_image) =
          Multiset.map (update_meme ((one_meme_state.clock + 5000) % U32))
            (Multiset.filter
              (fun m => age ((one_meme_state.clock + 5000) % U32) m ≤ IMAGE_LIFETIME)
              ((live one_meme_state : List meme_image) : Multiset meme_image))) ∧
      (∀ m ∈ live one_meme_state,
        age ((one_meme_state.clock + 5000) % U32) m ≤ IMAGE_LIFETIME →
        (update_meme ((one_meme_state.clock + 5000) % U32) m).texture = m.texture ∧
        (update_meme ((one_meme_state.clock + 5000) % U32) m).velocity = m.velocity ∧
        (update_meme ((one_meme_state.clock + 5000) % U32) m).spawn_time = m.spawn_time ∧
        (update_meme ((one_meme_state.clock + 5000) % U32) m).position.x =
          f32_round (m.position.x + m.velocity.x) ∧
        (update_meme ((one_meme_state.clock + 5000) % U32) m).position.y =
          f32_round (m.position.y + m.velocity.y) ∧
        (update_meme ((one_meme_state.clock + 5000) % U32) m).scale =
          f32_round (1 - f32_round
            ((age ((one_meme_state.clock + 5000) % U32) m : ℚ) / 10000)) ∧
        0 ≤ (update_meme ((one_meme_state.clock + 5000) % U32) m).scale ∧
        (update_meme ((one_meme_state.clock + 5000) % U32) m).scale ≤ 1 ∧
        |(update_meme ((one_meme_state.clock + 5000) % U32) m).scale -
            spec_scale ((one_meme_state.clock + 5000) % U32) m| ≤ 1 / 2 ^ 24) ∧
      (∀ m ∈ live one_meme_state, age ((one_meme_state.clock + 5000) % U32) m = 5000 →
        (update_meme ((one_meme_state.clock + 5000) % U32) m).scale = 1 / 2) :=
  ⟨one_meme_state_finite,
    update_and_render_memes_binary32 5000 one_meme_state (by decide) (by decide) (by decide)
      one_meme_state_finite⟩

/-- C3: when blackout is set or the pool is at capacity, a spawn attempt leaves
the whole state as it is, whatever the draws and the load outcome: count and
entries unchanged, no `load_image` call recorded, no handle acquired. -/
theorem spawn_meme_rejected (e : SpawnEnv) (s : State)
    (h : s.blackout = true ∨ s.meme_count = MAX_MEMES) : spawn_meme e s = some s := by
  unfold spawn_meme
  rw [if_pos]
  rcases h with h | h
  · simp [h]
  · simp [h]

/-- A spawn in blackout leaves the state as it is. -/
theorem spawn_meme_rejected_witness :
    (blackout_state.blackout = true ∨ blackout_state.meme_count = MAX_MEMES) ∧
      spawn_meme good_spawn blackout_state = some blackout_state :=
  ⟨Or.inl rfl, spawn_meme_rejected good_spawn blackout_state (Or.inl rfl)⟩

/-- C6, as amended: with blackout unset, after a pool update at clock value
`now` no live entity has a spawn time `t` with `now - t > IMAGE_LIFETIME` (in
`Uint32`), so an entity whose age exceeds the lifetime is absent from the pool;
and an entity whose age is `IMAGE_LIFETIME` exactly is still in the pool, with
its texture and spawn time. -/
theorem expired_entity_absent (d : Nat) (s : State)
    (hlen : s.memes.length = MAX_MEMES.toNat) (h0 : 0 ≤ s.meme_count)
    (h1 : s.meme_count ≤ MAX_MEMES) (hb : s.blackout = false) :
    ∃ s', update_and_render_memes d s = some s' ∧
      (∀ t : Nat, u32_sub ((s.clock + d) % U32) t > IMAGE_LIFETIME →
        ∀ m ∈ live s', m.spawn_time ≠ t) ∧
      (∀ m ∈ live s, age ((s.clock + d) % U32) m = IMAGE_LIFETIME →
        ∃ m' ∈ live s', m'.texture = m.texture ∧ m'.spawn_time = m.spawn_time) := by
  obtain ⟨s', h2, h3, _, _, _, _⟩ :=
    update_and_render_memes_spec d s h0 (pool_ok_toNat_le ⟨hlen, h0, h1⟩)
  refine ⟨s', h2, ?_, ?_⟩
  · intro t ht m hm heq
    have hm2 := (h3.mem_iff).mp hm
    rw [List.mem_map] at hm2
    obtain ⟨m0, hm0, rfl⟩ := hm2
    rw [List.mem_filter] at hm0
    have hs := hm0.2
    rw [update_meme_spawn_time] at heq
    subst heq
    simp only [survives, Bool.not_eq_true', Bool.or_eq_false_iff, decide_eq_false_iff_not] at hs
    exact hs.2 ht
  · intro m hm hage
    refine ⟨update_meme ((s.clock + d) % U32) m, ?_, rfl, rfl⟩
    rw [h3.mem_iff, List.mem_map]
    refine ⟨m, ?_, rfl⟩
    rw [List.mem_filter]
    refine ⟨hm, ?_⟩
    rw [hb, survives_eq, hage]
    decide

/-- An entity spawned at time 0 is absent after the update at clock value
10001, in a pool out of blackout. -/
theorem expired_entity_absent_witness :
    one_meme_state.blackout = false ∧
      ∃ s', update_and_render_memes 10001 one_meme_state = some s' ∧
        (∀ t : Nat, u32_sub ((one_meme_state.clock + 10001) % U32) t > IMAGE_LIFETIME →
          ∀ m ∈ live s', m.spawn_time ≠ t) ∧
        (∀ m ∈ live one_meme_state,
          age ((one_meme_state.clock + 10001) % U32) m = IMAGE_LIFETIME →
            ∃ m' ∈ live s', m'.texture = m.texture ∧ m'.spawn_time = m.spawn_time) :=
  ⟨rfl, expired_entity_absent 10001 one_meme_state (by decide) (by decide) (by decide) rfl⟩

/-- C6 as stated fails at the boundary: an entity spawned at time 0 is still
live after the pool update at clock value 10000, where its age equals
`IMAGE_LIFETIME`. -/
theorem boundary_age_entity_present :
    u32_sub 10000 0 ≥ IMAGE_LIFETIME ∧ one_meme_state.blackout = false ∧
      live_spawn_times one_meme_state = [0] ∧
      Option.map live_spawn_times (update_and_render_memes 10000 one_meme_state) = some [0] := by
  decide

/-- C10: with no asset file found, a spawn that is not rejected evaluates
`rand() % 0`: the embedded `spawn_meme` has no result. -/
theorem spawn_meme_no_asset_files :
    (main_init no_file_init).blackout = false ∧ (main_init no_file_init).meme_count = 0 ∧
      (main_init no_file_init).meme_file_count = 0 ∧
      spawn_meme good_spawn (main_init no_file_init) = none := by
  decide

/-! ## Claims about the bounce physics -/

theorem edge_box_finite :
    f32_finite (edge_box.position.x + edge_box.velocity.x) ∧
      f32_finite (edge_box.position.y + edge_box.velocity.y) := by
  constructor <;>
    · unfold f32_finite
      norm_num [edge_box, vec2_create, abs_lt]

/-- C4 as stated fails: the box at `(1280, 384)` with velocity `(2 ^ (-14), 2)`
has `position.x = 1280` after one bounce tick, the binary32 sum, and not
`1280 + 2 ^ (-14)`, the old position plus the old velocity. -/
theorem bounce_tick_sum_rounded :
    (render_ricocheting_texts edge_box).position.x = 1280 ∧
      edge_box.position.x + edge_box.velocity.x = 1280 + 1 / 16384 ∧
      (1280 : ℚ) ≠ 1280 + 1 / 16384 := by
  refine ⟨?_, rfl, by norm_num⟩
  rw [tick_position]
  show f32_round (1280 + 1 / 16384) = 1280
  exact f32_round_edge

/-- C4, as amended: for a text box with finite coordinates that stay finite
when the velocity is added, one bounce tick sets each position coordinate to
the binary32 sum of the old coordinate and the old velocity, without clamping;
the sum is the exact one whenever that is an integer below `2 ^ 24` in
magnitude. It then negates `velocity.x` exactly when the new `position.x` is
below zero or above `SCREEN_WIDTH`, and `velocity.y` exactly when the new
`position.y` is below zero or above `SCREEN_HEIGHT`; the absolute value of each
velocity component is unchanged. The hypotheses `hfx` and `hfy` mark the boxes
on which the embedding, which has no infinities, follows the code. -/
theorem bounce_tick_binary32 (box : text_box)
    (hfx : f32_finite (box.position.x + box.velocity.x))
    (hfy : f32_finite (box.position.y + box.velocity.y)) :
    (render_ricocheting_texts box).position.x =
      f32_round (box.position.x + box.velocity.x) ∧
    (render_ricocheting_texts box).position.y =
      f32_round (box.position.y + box.velocity.y) ∧
    (∀ n : ℤ, box.position.x + box.velocity.x = (n : ℚ) → |(n : ℚ)| < 2 ^ 24 →
      (render_ricocheting_texts box).position.x = box.position.x + box.velocity.x) ∧
    (∀ n : ℤ, box.position.y + box.velocity.y = (n : ℚ) → |(n : ℚ)| < 2 ^ 24 →
      (render_ricocheting_texts box).position.y = box.position.y + box.velocity.y) ∧
    (render_ricocheting_texts box).velocity.x =
      (if (render_ricocheting_texts box).position.x < 0 ∨
          (render_ricocheting_texts box).position.x > (SCREEN_WIDTH : ℚ)
        then -box.velocity.x else box.velocity.x) ∧
    (render_ricocheting_texts box).velocity.y =
      (if (render_ricocheting_texts box).position.y < 0 ∨
          (render_ricocheting_texts box).position.y > (SCREEN_HEIGHT : ℚ)
        then -box.velocity.y else box.velocity.y) ∧
    |(render_ricocheting_texts box).velocity.x| = |box.velocity.x| ∧
    |(render_ricocheting_texts box).velocity.y| = |box.velocity.y| := by
  have hx : (render_ricocheting_texts box).position.x =
      f32_round (box.position.x + box.velocity.x) := by
    rw [tick_position]; rfl
  have hy : (render_ricocheting_texts box).position.y =
      f32_round (box.position.y + box.velocity.y) := by
    rw [tick_position]; rfl
  refine ⟨hx, hy, ?_, ?_, ?_, ?_, ?_, ?_⟩
  · intro n hn hsmall
    rw [hx, hn, f32_round_int n hsmall]
  · intro n hn hsmall
    rw [hy, hn, f32_round_int n hsmall]
  · rw [hx, tick_velocity_x]; simp [SCREEN_WIDTH]
  · rw [hy, tick_velocity_y]; simp [SCREEN_HEIGHT]
  · rw [tick_velocity_x]; split_ifs
    · exact abs_neg _
    · rfl
  · rw [tick_velocity_y]; split_ifs
    · exact abs_neg _
    · rfl

/-- The amended bounce tick at the box on the right edge. -/
theorem bounce_tick_binary32_witness :
    (f32_finite (edge_box.position.x + edge_box.velocity.x) ∧
      f32_finite (edge_box.position.y + edge_box.velocity.y)) ∧
    (render_ricocheting_texts edge_box).position.x =
      f32_round (edge_box.position.x + edge_box.velocity.x) ∧
    (render_ricocheting_texts edge_box).position.y =
      f32_round (edge_box.position.y + edge_box.velocity.y) ∧
    (∀ n : ℤ, edge_box.position.x + edge_box.velocity.x = (n : ℚ) → |(n : ℚ)| < 2 ^ 24 →
      (render_ricocheting_texts edge_box).position.x =
        edge_box.position.x + edge_box.velocity.x) ∧
    (∀ n : ℤ, edge_box.position.y + edge_box.velocity.y = (n : ℚ) → |(n : ℚ)| < 2 ^ 24 →
      (render_ricocheting_texts edge_box).position.y =
        edge_box.position.y + edge_box.velocity.y) ∧
    (render_ricocheting_texts edge_box).velocity.x =
      (if (render_ricocheting_texts edge_box).position.x < 0 ∨
          (render_ricocheting_texts edge_box).position.x > (SCREEN_WIDTH : ℚ)
        then -edge_box.velocity.x else edge_box.velocity.x) ∧
    (render_ricocheting_texts edge_box).velocity.y =
      (if (render_ricocheting_texts edge_box).position.y < 0 ∨
          (render_ricocheting_texts edge_box).position.y > (SCREEN_HEIGHT : ℚ)
        then -edge_box.velocity.y else edge_box.velocity.y) ∧
    |(render_ricocheting_texts edge_box).velocity.x| = |edge_box.velocity.x| ∧
    |(render_ricocheting_texts edge_box).velocity.y| = |edge_box.velocity.y| :=
  ⟨⟨edge_box_finite.1, edge_box_finite.2⟩,
    bounce_tick_binary32 edge_box edge_box_finite.1 edge_box_finite.2⟩

/-- C9: a text box that starts with `position.x` in `[0, 1280)`, `position.y`
in `[0, 768)` and each velocity component `2` or `-2` stays, after any number
of bounce ticks, within `-2 ≤ x ≤ 1282` and `-2 ≤ y ≤ 770`; and a coordinate
that is outside its screen interval after a tick is inside after the next. -/
theorem bounce_overshoot_bounded (box : text_box)
    (hx : 0 ≤ box.position.x ∧ box.position.x < 1280)
    (hy : 0 ≤ box.position.y ∧ box.position.y < 768)
    (hvx : box.velocity.x = 2 ∨ box.velocity.x = -2)
    (hvy : box.velocity.y = 2 ∨ box.velocity.y = -2) (n : Nat) :
    (-2 ≤ (bounce_ticks n box).position.x ∧ (bounce_ticks n box).position.x ≤ 1282) ∧
    (-2 ≤ (bounce_ticks n box).position.y ∧ (bounce_ticks n box).position.y ≤ 770) ∧
    ((bounce_ticks n box).position.x < 0 ∨
        (bounce_ticks n box).position.x > (SCREEN_WIDTH : ℚ) →
      0 ≤ (bounce_ticks (n + 1) box).position.x ∧
        (bounce_ticks (n + 1) box).position.x ≤ (SCREEN_WIDTH : ℚ)) ∧
    ((bounce_ticks n box).position.y < 0 ∨
        (bounce_ticks n box).position.y > (SCREEN_HEIGHT : ℚ) →
      0 ≤ (bounce_ticks (n + 1) box).position.y ∧
        (bounce_ticks (n + 1) box).position.y ≤ (SCREEN_HEIGHT : ℚ)) := by
  have h := bounce_ticks_ok box (Or.inl ⟨hx.1, le_of_lt hx.2, hvx⟩)
    (Or.inl ⟨hy.1, le_of_lt hy.2, hvy⟩) n
  have bx := coord_ok_bounds (by norm_num) h.1
  have by1 := coord_ok_bounds (by norm_num) h.2
  refine ⟨⟨bx.1, by linarith [bx.2]⟩, ⟨by1.1, by linarith [by1.2]⟩, ?_, ?_⟩
  · intro hout
    simp only [SCREEN_WIDTH, Nat.cast_ofNat] at hout ⊢
    have := coord_ok_return 1280 (by norm_num) (by norm_num) (by exact_mod_cast h.1)
      (by exact_mod_cast hout)
    simpa [bounce_ticks, tick_position, vec2_add, vec2_create, f32_add] using this
  · intro hout
    simp only [SCREEN_HEIGHT, Nat.cast_ofNat] at hout ⊢
    have := coord_ok_return 768 (by norm_num) (by norm_num) (by exact_mod_cast h.2)
      (by exact_mod_cast hout)
    simpa [bounce_ticks, tick_position, vec2_add, vec2_create, f32_add] using this

/-- The bounds for a box that starts in the bottom right corner, after one tick. -/
theorem bounce_overshoot_bounded_witness :
    (-2 ≤ (bounce_ticks 1 corner_box).position.x ∧
      (bounce_ticks 1 corner_box).position.x ≤ 1282) ∧
    (-2 ≤ (bounce_ticks 1 corner_box).position.y ∧
      (bounce_ticks 1 corner_box).position.y ≤ 770) ∧
    ((bounce_ticks 1 corner_box).position.x < 0 ∨
        (bounce_ticks 1 corner_box).position.x > (SCREEN_WIDTH : ℚ) →
      0 ≤ (bounce_ticks (1 + 1) corner_box).position.x ∧
        (bounce_ticks (1 + 1) corner_box).position.x ≤ (SCREEN_WIDTH : ℚ)) ∧
    ((bounce_ticks 1 corner_box).position.y < 0 ∨
        (bounce_ticks 1 corner_box).position.y > (SCREEN_HEIGHT : ℚ) →
      0 ≤ (bounce_ticks (1 + 1) corner_box).position.y ∧
        (bounce_ticks (1 + 1) corner_box).position.y ≤ (SCREEN_HEIGHT : ℚ)) :=
  bounce_overshoot_bounded corner_box (init_text_box_start 32767 corner_draws).1
    (init_text_box_start 32767 corner_draws).2.1 (init_text_box_start 32767 corner_draws).2.2.1
    (init_text_box_start 32767 corner_draws).2.2.2 1

/-! ## Claims about the scene -/

/-- C5: in the run that spawns one image, sees the beat end and then sees
ricochet end, the handle acquired by the spawn is no longer in the pool, was
never passed to `SDL_DestroyTexture`, and teardown has run. -/
theorem ricochet_clear_drops_handle :
    Option.map handle_summary (main one_file_init leak_run) = some ([7], [], [], true) := by
  decide

/-- C7 as stated fails: in the run `credits_run` credits start with
`credits_start_time - ricochet_start_time = 7001`, not `RICOCHET_DURATION`. -/
theorem ricochet_to_credits_not_exact :
    Option.map credits_entry (frames credits_run (main_init one_file_init)) = some (true, 7001) ∧
      7001 ≠ RICOCHET_DURATION := by
  decide

/-- C7, as amended: in every run of the frame loop whose clock has not wrapped,
once credits have started the time from ricochet entry to credits entry is
strictly greater than `RICOCHET_DURATION`. -/
theorem ricochet_to_credits_exceeds_duration (e0 : InitEnv) (es : List FrameEnv) (s : State)
    (h : frames es (main_init e0) = some s) (hclk : s.clock < U32)
    (hc : s.credits_started = true) :
    s.ricochet_start_time + RICOCHET_DURATION < s.credits_start_time ∧
      u32_sub s.credits_start_time s.ricochet_start_time > RICOCHET_DURATION := by
  obtain ⟨_, hs, _⟩ := frames_ok es (main_init e0) s (pool_ok_init e0) (scene_ok_init e0) h
  obtain ⟨_, k0, _, k3, _⟩ := hs.2.2.2.2.2.2 hclk
  have h1 := k3 hc
  refine ⟨h1, ?_⟩
  rw [u32_sub_of_le _ _ (by omega) (by omega)]
  omega

/-- The run `credits_run` enters credits more than `RICOCHET_DURATION` after ricochet. -/
theorem ricochet_to_credits_exceeds_duration_witness :
    credits_state.ricochet_start_time + RICOCHET_DURATION < credits_state.credits_start_time ∧
      u32_sub credits_state.credits_start_time credits_state.ricochet_start_time >
        RICOCHET_DURATION :=
  ricochet_to_credits_exceeds_duration one_file_init credits_run credits_state rfl
    (by decide) (by decide)

/-- C8: in every run of the frame loop the second scream is played at most
once; a frame that plays it has credits started and reads a clock value `t`
with `t - credits_music_start_time > 4000` in `Uint32`, so while the clock has
not wrapped `t` is later than `credits_music_start_time + 4000`; and once
`second_scream_triggered` is set, further frames keep it set and play no
further second scream. -/
theorem second_scream_at_most_once (e0 : InitEnv) (es : List FrameEnv) (s : State)
    (h : frames es (main_init e0) = some s) :
    s.second_scream_log.length ≤ 1 ∧
    (∀ t ∈ s.second_scream_log,
      s.credits_started = true ∧ u32_sub t s.credits_music_start_time > 4000) ∧
    (s.clock < U32 → ∀ t ∈ s.second_scream_log, s.credits_music_start_time + 4000 < t) ∧
    (∀ (more : List FrameEnv) (s' : State), frames more s = some s' →
      s.second_scream_triggered = true →
        s'.second_scream_triggered = true ∧ s'.second_scream_log = s.second_scream_log) := by
  obtain ⟨hp, hs, _⟩ := frames_ok es (main_init e0) s (pool_ok_init e0) (scene_ok_init e0) h
  obtain ⟨h1, h2, h3, h4, h5, h6, h7⟩ := hs
  refine ⟨h5, ?_, ?_, ?_⟩
  · intro t ht
    refine ⟨?_, h6 t ht⟩
    cases hcs : s.credits_started with
    | true => rfl
    | false =>
      have := h4 (h3 hcs)
      rw [this] at ht; cases ht
  · intro hclk
    exact (h7 hclk).2.2.2.2
  · intro more s' hm ht
    exact (frames_ok more s s' hp ⟨h1, h2, h3, h4, h5, h6, h7⟩ hm).2.2 ht

/-- The run `scream_run` plays the second scream once, 4001 ms into the credits music. -/
theorem second_scream_at_most_once_witness :
    scream_state.second_scream_log.length ≤ 1 ∧
    (∀ t ∈ scream_state.second_scream_log,
      scream_state.credits_started = true ∧
        u32_sub t scream_state.credits_music_start_time > 4000) ∧
    (scream_state.clock < U32 →
      ∀ t ∈ scream_state.second_scream_log, scream_state.credits_music_start_time + 4000 < t) ∧
    (∀ (more : List FrameEnv) (s' : State), frames more scream_state = some s' →
      scream_state.second_scream_triggered = true →
        s'.second_scream_triggered = true ∧
          s'.second_scream_log = scream_state.second_scream_log) :=
  second_scream_at_most_once one_file_init scream_run scream_state rfl

end MemeCascade
